import Mathlib

/-!
# TSC calibration (`osfmk/i386/tsc.c`)

A shallow embedding of the boot-time TSC calibration pass.  Unsigned 64-bit
quantities are natural numbers reduced modulo `2^64` wherever the C arithmetic
can wrap.  An integer division whose divisor is zero has no result (the CPU
raises a divide fault), so every function that divides returns an `Option`.
-/

namespace Tsc

/-! ## Machine arithmetic -/

/-- Modulus of `uint64_t` arithmetic. -/
def two64 : Nat := 2 ^ 64

/-- Modulus of `uint32_t` arithmetic. -/
def two32 : Nat := 2 ^ 32

/-- The constant `0xFFFFFFFFFFFFFFFFULL`. -/
def UINT64_MAX : Nat := 0xFFFFFFFFFFFFFFFF

/-- Unsigned division as the hardware performs it: no result on a zero divisor. -/
def udiv (a b : Nat) : Option Nat :=
  if b = 0 then none else some (a / b)

/-- Decimal power `kilo` (`1000ULL`). -/
def kilo : Nat := 1000

/-- Decimal power `Mega` (`kilo * kilo`). -/
def Mega : Nat := kilo * kilo

/-- Decimal power `Giga` (`kilo * Mega`). -/
def Giga : Nat := kilo * Mega

/-- The scale `(1 * Giga) << 32` used by every tick-to-nanosecond factor. -/
def GigaShl32 : Nat := ((1 * Giga) <<< 32) % two64

/-- Macro `bit(n)`: `1ULL << n`. -/
def bit (n : Nat) : Nat := (1 <<< n) % two64

/-- Bitwise complement of a 64-bit value. -/
def not64 (x : Nat) : Nat := two64 - 1 - x % two64

/-- Macro `bitmask(h,l)`: `(bit(h)|(bit(h)-1)) & ~(bit(l)-1)`. -/
def bitmask (h l : Nat) : Nat := (bit h ||| (bit h - 1)) &&& not64 (bit l - 1)

/-- Macro `bitfield(x,h,l)`: `((x) & bitmask(h,l)) >> l`. -/
def bitfield (x h l : Nat) : Nat := (x &&& bitmask h l) >>> l

/-! ## Calibration state (the globals of `tsc.c`) -/

/-- The global variables written by the calibration pass. -/
structure State where
  busFCvtt2n : Nat
  busFCvtn2t : Nat
  tscFreq : Nat
  tscFCvtt2n : Nat
  tscFCvtn2t : Nat
  tscGranularity : Nat
  bus2tsc : Nat
  busFreq : Nat
  flex_ratio : Nat
  flex_ratio_min : Nat
  flex_ratio_max : Nat
  tsc_at_boot : Nat
  deriving DecidableEq

/-- The static initialisers: every global starts at zero. -/
def State.zero : State :=
  { busFCvtt2n := 0, busFCvtn2t := 0, tscFreq := 0, tscFCvtt2n := 0,
    tscFCvtn2t := 0, tscGranularity := 0, bus2tsc := 0, busFreq := 0,
    flex_ratio := 0, flex_ratio_min := 0, flex_ratio_max := 0, tsc_at_boot := 0 }

/-! ## External collaborators -/

/-- A device-tree property as `DTGetProperty` reports it: its byte size and the
`uint64_t` found at its address (read only when the size is 8). -/
structure DTProp where
  size : Nat
  value : Nat
  deriving DecidableEq

/-- Header constants and helpers that `tsc.c` uses but does not define. -/
structure Config where
  CPUFAMILY_INTEL_MEROM : Nat
  CPUFAMILY_INTEL_PENRYN : Nat
  CPU_FAMILY_PENTIUM_4 : Nat
  BASE_NHM_CLOCK_SOURCE : Nat
  MSR_FLEX_RATIO_addr : Nat
  MSR_PLATFORM_INFO : Nat
  IA32_PERF_STS : Nat
  AMD_PERF_STS : Nat
  AMD_COFVID_STS : Nat
  tmrCvt : Nat → Nat → Nat

/-- Constant `CPU_FAMILY_PENTIUM_M` (`0x6`), defined in `tsc.c` itself. -/
def CPU_FAMILY_PENTIUM_M : Nat := 0x6

/-- Everything the pass reads from the machine it runs on: CPU identification,
the hypervisor report, model-specific registers, the `/efi/platform` device
tree entry and the boot arguments. -/
structure Env where
  IsIntelCPU : Bool
  IsAmdCPU : Bool
  cpuid_vmm_present : Bool
  cpuid_vmm_tsc_frequency : Nat
  cpuid_vmm_bus_frequency : Nat
  cpuid_cpufamily : Nat
  cpuid_model : Nat
  cpuid_family : Nat
  rdmsr64 : Nat → Nat
  cpuRealFreq : Nat
  efi_platform : Bool
  DTGetProperty : String → Option DTProp
  bootarg_cpuEFI : Bool
  bootarg_fsb : Option Int
  bootarg_busratio : Option Nat

/-- A 64-bit register read. -/
def rdmsr (e : Env) (addr : Nat) : Nat := e.rdmsr64 addr % two64

/-- The hypervisor's TSC frequency in KHz (`uint32_t`). -/
def vmm_tsc_frequency (e : Env) : Nat := e.cpuid_vmm_tsc_frequency % two32

/-- The hypervisor's bus frequency in KHz (`uint32_t`). -/
def vmm_bus_frequency (e : Env) : Nat := e.cpuid_vmm_bus_frequency % two32

/-! ## Firmware probes -/

/-- Store of `InitialTSC` into `tsc_at_boot`, shared by both bus-frequency
probes (`tsc.c` lines 126-132 and 256-262). -/
def read_InitialTSC (e : Env) (s : State) : State :=
  match e.DTGetProperty "InitialTSC" with
  | some q => if q.size = 8 then { s with tsc_at_boot := q.value % two64 } else s
  | none => s

/-- Function `EFI_get_frequency(prop)`: the property value, unchecked. -/
def EFI_get_frequency (e : Env) (prop : String) (s : State) : Nat × State :=
  if e.efi_platform = false then (0, s)
  else
    match e.DTGetProperty prop with
    | none => (0, s)
    | some p =>
      let frequency := if p.size = 8 then p.value % two64 else 0
      (frequency, read_InitialTSC e s)

/-- Function `EFI_CPU_Frequency()`. -/
def EFI_CPU_Frequency (e : Env) : Nat :=
  if e.bootarg_cpuEFI then
    if e.efi_platform = false then 0
    else
      match e.DTGetProperty "CPUFrequency" with
      | none => 0
      | some p =>
        if p.size = 8 then
          let frequency := p.value % two64
          if ¬ (10 * Mega < frequency ∧ frequency < 50 * Giga) then 0 else frequency
        else 0
  else if e.IsAmdCPU then e.cpuRealFreq % two64
  else 0

/-- Function `getFakeMSR(frequency, bFreq)`. -/
def getFakeMSR (frequency bFreq : Nat) : Option Nat :=
  if frequency = 0 ∨ bFreq = 0 then some 0
  else
    (udiv frequency (bFreq / 1000)).bind fun multi =>
      let fakeMSR := (multi + 250) % two64 / 1000
      let fakeMSR := (fakeMSR <<< 40) % two64
      if multi % 1000 > 250 ∧ multi % 1000 < 750 then some (fakeMSR ||| (1 <<< 46))
      else some fakeMSR

/-- Function `GetCpuMultiplayer()`: sets `busFreq` to 200 MHz and
`tscGranularity` to the multiplier it returns. -/
def GetCpuMultiplayer (e : Env) (s : State) : Option (Nat × State) :=
  let s := { s with busFreq := 200 * Mega }
  let cpuFreq := EFI_CPU_Frequency e
  (getFakeMSR cpuFreq s.busFreq).bind fun prfsts =>
    let s := { s with tscGranularity := bitfield prfsts 44 40 }
    some (s.tscGranularity, s)

/-- Function `EFI_FSB_frequency()`: the property value, range-checked. -/
def EFI_FSB_frequency (e : Env) (s : State) : Nat × State :=
  if e.efi_platform = false then (0, s)
  else
    match e.DTGetProperty "FSBFrequency" with
    | none => (0, s)
    | some p =>
      let frequency :=
        if p.size = 8 then
          let frequency := p.value % two64
          if ¬ (90 * Mega < frequency ∧ frequency < 20 * Giga) then 0 else frequency
        else 0
      (frequency, read_InitialTSC e s)

/-- Conversion of the `int` boot argument `fsb` in `res * Mega`: the value is
a 32-bit signed integer, converted to `unsigned long long` and multiplied
modulo `2^64`. -/
def fsb_times_Mega (res : Int) : Nat :=
  (((res + 2 ^ 31) % 2 ^ 32 - 2 ^ 31) * (Mega : Int) % (two64 : Int)).toNat

/-- Function `Detect_FSB_frequency()`. -/
def Detect_FSB_frequency (e : Env) (s : State) : Option (Nat × State) :=
  match e.bootarg_fsb with
  | some res => some (fsb_times_Mega res, s)
  | none =>
    (GetCpuMultiplayer e s).bind fun r =>
      let cpuMult := r.1
      let s := r.2
      let cpuFreq := EFI_CPU_Frequency e
      if cpuMult = 0 ∨ cpuFreq = 0 then some (200 * Mega, s)
      else
        (udiv cpuFreq cpuMult).bind fun freq =>
          if freq ≠ 0 then some (freq, s) else some (200 * Mega, s)

/-! ## The calibration pass `tsc_init` -/

/-- The `busratio` boot-argument block that closes every family branch except
the default Intel one (lines 406-411, 439-444, 467-472, 493-498, 523-528,
546-551): `PE_parse_boot_argn` stores the value into `tscGranularity`. -/
def busratio_bootarg (e : Env) (s : State) (N_by_2_bus_ratio : Bool) : State × Bool :=
  match e.bootarg_busratio with
  | none => (s, N_by_2_bus_ratio)
  | some v =>
    let s := { s with tscGranularity := v % two64 }
    let s := if s.tscGranularity = 0 then { s with tscGranularity := 1 } else s
    let N_by_2_bus_ratio := decide (s.tscGranularity > 30) && decide (s.tscGranularity % 10 ≠ 0)
    let s := if N_by_2_bus_ratio then { s with tscGranularity := s.tscGranularity / 10 } else s
    (s, N_by_2_bus_ratio)

/-- Reading the ratio from `IA32_PERF_STS`: bits 40-44 and bit 46
(lines 373-375, 401-403, 425-427). -/
def perf_sts_ratio (k : Config) (e : Env) (s : State) : State × Bool :=
  let prfsts := rdmsr e k.IA32_PERF_STS
  ({ s with tscGranularity := bitfield prfsts 44 40 % two32 }, decide (prfsts &&& bit 46 ≠ 0))

/-- Synthesising the ratio from the firmware CPU frequency and the current
`busFreq` (lines 389-392, 433-436).  The flag is `(boolean_t)(prfsts & bit(46))`:
the 64-bit value is converted to the 32-bit `boolean_t`. -/
def fake_msr_ratio (e : Env) (s : State) : Option (State × Bool) :=
  let cpuFreq := EFI_CPU_Frequency e
  (getFakeMSR cpuFreq s.busFreq).bind fun prfsts =>
    some ({ s with tscGranularity := bitfield prfsts 44 40 % two32 },
          decide ((prfsts &&& bit 46) % two32 ≠ 0))

/-- The default Intel family (lines 342-368). -/
def tsc_init_intel_default (k : Config) (e : Env) (s : State) (N_by_2_bus_ratio : Bool) :
    Option (State × Bool) :=
  let msr_flex_ratio := rdmsr e k.MSR_FLEX_RATIO_addr
  let msr_platform_info := rdmsr e k.MSR_PLATFORM_INFO
  let s := { s with flex_ratio_min := bitfield msr_platform_info 47 40 % two32 }
  let s := { s with flex_ratio_max := bitfield msr_platform_info 15 8 % two32 }
  let s := { s with tscGranularity := s.flex_ratio_max }
  let s :=
    if msr_flex_ratio &&& bit 16 ≠ 0 then
      let s := { s with flex_ratio := bitfield msr_flex_ratio 15 8 % two32 }
      if s.flex_ratio < s.flex_ratio_max then { s with tscGranularity := s.flex_ratio } else s
    else s
  let r := EFI_get_frequency e "FSBFrequency" s
  let s : State := { r.2 with busFreq := r.1 }
  let s := if s.busFreq = 0 then { s with busFreq := k.BASE_NHM_CLOCK_SOURCE % two64 } else s
  some (s, N_by_2_bus_ratio)

/-- The block under `case CPU_FAMILY_PENTIUM_4` (lines 381-414). -/
def tsc_init_pentium_4 (k : Config) (e : Env) (s : State) (N_by_2_bus_ratio : Bool) :
    Option (State × Bool) :=
  let r : Option (State × Bool) :=
    if e.cpuid_model < 2 then fake_msr_ratio e s
    else if e.cpuid_model = 2 then
      let prfsts := rdmsr e 0x2C
      some ({ s with tscGranularity := bitfield prfsts 31 24 }, N_by_2_bus_ratio)
    else some (perf_sts_ratio k e s)
  r.bind fun r => some (busratio_bootarg e r.1 r.2)

/-- The block under `case CPUFAMILY_INTEL_MEROM` / `case CPUFAMILY_INTEL_PENRYN`
(lines 369-378).  It has no `break`, so control continues into the Pentium 4
block. -/
def tsc_init_merom_penryn (k : Config) (e : Env) (s : State) : Option (State × Bool) :=
  let r := perf_sts_ratio k e s
  let N_by_2_bus_ratio := r.2
  let r := EFI_get_frequency e "FSBFrequency" r.1
  let s : State := { r.2 with busFreq := r.1 }
  tsc_init_pentium_4 k e s N_by_2_bus_ratio

/-- The block under `case CPU_FAMILY_PENTIUM_M` (lines 417-447). -/
def tsc_init_pentium_m (k : Config) (e : Env) (s : State) : Option (State × Bool) :=
  let r : Option (State × Bool) :=
    if e.cpuid_model ≥ 0xD then some (perf_sts_ratio k e s)
    else fake_msr_ratio e s
  r.bind fun r => some (busratio_bootarg e r.1 r.2)

/-- AMD K8, family 15 (lines 453-475).  The flag is bit 0 of the synthesised
register.  The value read from `AMD_PERF_STS` is overwritten before use. -/
def tsc_init_amd_k8 (e : Env) (s : State) : Option (State × Bool) :=
  (Detect_FSB_frequency e s).bind fun r =>
    let s : State := { r.2 with busFreq := r.1 }
    let cpuFreq := EFI_CPU_Frequency e
    (getFakeMSR cpuFreq s.busFreq).bind fun prfsts =>
      let s := { s with tscGranularity := bitfield prfsts 44 40 % two32 }
      some (busratio_bootarg e s (decide (prfsts &&& bit 0 ≠ 0)))

/-- AMD K10, families 16 and 18 (lines 478-501). -/
def tsc_init_amd_k10 (e : Env) (s : State) : Option (State × Bool) :=
  (Detect_FSB_frequency e s).bind fun r =>
    let s : State := { r.2 with busFreq := r.1 }
    let cpuFreq := EFI_CPU_Frequency e
    (getFakeMSR cpuFreq s.busFreq).bind fun prfsts =>
      let s := { s with tscGranularity := bitfield prfsts 44 40 % two32 }
      some (busratio_bootarg e s (decide (prfsts &&& bit 46 ≠ 0)))

/-- AMD APU, families 6, 20, 21 and 22 (lines 504-532).  The closing
`EFI_FSB_frequency()` call only feeds the unused local `cpu_mhz`, but it
stores `InitialTSC`. -/
def tsc_init_amd_apu (e : Env) (s : State) : Option (State × Bool) :=
  (Detect_FSB_frequency e s).bind fun r =>
    let s : State := { r.2 with busFreq := r.1 }
    let cpuFreq := EFI_CPU_Frequency e
    (getFakeMSR cpuFreq s.busFreq).bind fun prfsts =>
      let s := { s with tscGranularity := bitfield prfsts 44 40 % two32 }
      let r := busratio_bootarg e s (decide (prfsts &&& bit 46 ≠ 0))
      let N_by_2_bus_ratio := r.2
      let s := (EFI_FSB_frequency e r.1).2
      some (s, N_by_2_bus_ratio)

/-- Unrecognised AMD families (lines 534-553): the flag is only written by the
boot-argument block. -/
def tsc_init_amd_default (e : Env) (s : State) (N_by_2_bus_ratio : Bool) :
    Option (State × Bool) :=
  let r := EFI_FSB_frequency e s
  let s : State := { r.2 with busFreq := r.1 }
  let cpuFreq := EFI_CPU_Frequency e
  (getFakeMSR cpuFreq s.busFreq).bind fun prfsts =>
    let s := { s with tscGranularity := bitfield prfsts 44 40 % two32 }
    some (busratio_bootarg e s N_by_2_bus_ratio)

/-- The vendor/family dispatch of `tsc_init` (lines 339-555).  It starts with
`N_by_2_bus_ratio = FALSE` and yields the state together with that flag. -/
def tsc_init_family (k : Config) (e : Env) (s : State) : Option (State × Bool) :=
  if e.IsIntelCPU then
    if e.cpuid_cpufamily = k.CPUFAMILY_INTEL_MEROM ∨
        e.cpuid_cpufamily = k.CPUFAMILY_INTEL_PENRYN then tsc_init_merom_penryn k e s
    else if e.cpuid_cpufamily = k.CPU_FAMILY_PENTIUM_4 then tsc_init_pentium_4 k e s false
    else if e.cpuid_cpufamily = CPU_FAMILY_PENTIUM_M then tsc_init_pentium_m k e s
    else tsc_init_intel_default k e s false
  else
    if e.cpuid_family = 15 then tsc_init_amd_k8 e s
    else if e.cpuid_family = 16 ∨ e.cpuid_family = 18 then tsc_init_amd_k10 e s
    else if e.cpuid_family = 6 ∨ e.cpuid_family = 20 ∨ e.cpuid_family = 21 ∨
        e.cpuid_family = 22 then tsc_init_amd_apu e s
    else tsc_init_amd_default e s false

/-- The test guarding the hypervisor short-circuit (lines 311-320). -/
def vmm_short_circuit (e : Env) : Bool :=
  e.IsIntelCPU && e.cpuid_vmm_present &&
    decide (vmm_tsc_frequency e ≠ 0) && decide (vmm_bus_frequency e ≠ 0)

/-- The hypervisor short-circuit (lines 322-334). -/
def tsc_init_vmm (k : Config) (e : Env) (s : State) : Option State :=
  let s := { s with busFreq := vmm_bus_frequency e * kilo % two64 }
  (udiv GigaShl32 s.busFreq).bind fun q =>
  let s := { s with busFCvtt2n := q }
  (udiv UINT64_MAX s.busFCvtt2n).bind fun q =>
  let s := { s with busFCvtn2t := q }
  let s := { s with tscFreq := vmm_tsc_frequency e * kilo % two64 }
  (udiv GigaShl32 s.tscFreq).bind fun q =>
  let s := { s with tscFCvtt2n := q }
  (udiv UINT64_MAX s.tscFCvtt2n).bind fun q =>
  let s := { s with tscFCvtn2t := q }
  (udiv s.tscFreq s.busFreq).bind fun q =>
  let s := { s with tscGranularity := q }
  some { s with bus2tsc := k.tmrCvt s.busFCvtt2n s.tscFCvtn2t % two64 }

/-- The bus half of the shared tail (lines 558-566). -/
def tsc_init_bus (s : State) : Option State :=
  if s.busFreq ≠ 0 then
    (udiv GigaShl32 s.busFreq).bind fun q =>
    let s := { s with busFCvtt2n := q }
    (udiv UINT64_MAX s.busFCvtt2n).bind fun q =>
    some { s with busFCvtn2t := q }
  else
    some { s with busFreq := 200 * Mega }

/-- The TSC half of the shared tail (lines 575-602). -/
def tsc_init_tsc (k : Config) (s : State) (N_by_2_bus_ratio : Bool) : Option State :=
  if s.tscFreq = s.busFreq then
    let s := { s with bus2tsc := 1 }
    let s := { s with tscGranularity := 1 }
    let s := { s with tscFCvtn2t := s.busFCvtn2t }
    some { s with tscFCvtt2n := s.busFCvtt2n }
  else
    (if N_by_2_bus_ratio then
        udiv (s.busFCvtt2n * 2 % two64) ((1 + 2 * s.tscGranularity) % two64)
      else udiv s.busFCvtt2n s.tscGranularity).bind fun q =>
    let s := { s with tscFCvtt2n := q }
    (udiv GigaShl32 s.tscFCvtt2n).bind fun q =>
    let s := { s with tscFreq := q }
    (udiv UINT64_MAX s.tscFCvtt2n).bind fun q =>
    let s := { s with tscFCvtn2t := q }
    some { s with bus2tsc := k.tmrCvt s.busFCvtt2n s.tscFCvtn2t % two64 }

/-- The shared derivation tail (lines 558-602). -/
def tsc_init_tail (k : Config) (s : State) (N_by_2_bus_ratio : Bool) : Option State :=
  (tsc_init_bus s).bind fun s => tsc_init_tsc k s N_by_2_bus_ratio

/-- Function `tsc_init()`, run on the globals `s`. -/
def tsc_init (k : Config) (e : Env) (s : State) : Option State :=
  if vmm_short_circuit e then tsc_init_vmm k e s
  else (tsc_init_family k e s).bind fun r => tsc_init_tail k r.1 r.2

/-! ## Concrete machines and globals -/

/-- Modelled from the spec: the combinator `tmrCvt`, which `tsc.c` calls but
does not define.  With each 32.32 operand split into high and low words,
the result is `(a_hi*b_hi) + ((a_hi*b_lo + a_lo*b_hi) >> 32)`. -/
def tmrCvt (a b : Nat) : Nat :=
  let a_hi := a / two32 % two32
  let a_lo := a % two32
  let b_hi := b / two32 % two32
  let b_lo := b % two32
  (a_hi * b_hi + ((a_hi * b_lo + a_lo * b_hi) >>> 32)) % two64

/-- The header constants with the values of the XNU headers
(`mach/machine.h`, `i386/proc_reg.h`, `i386/cpuid.h`). -/
def xnuConfig : Config :=
  { CPUFAMILY_INTEL_MEROM := 0x426f69ef
    CPUFAMILY_INTEL_PENRYN := 0x78ea4fbc
    CPU_FAMILY_PENTIUM_4 := 0xF
    BASE_NHM_CLOCK_SOURCE := 133333333
    MSR_FLEX_RATIO_addr := 0x194
    MSR_PLATFORM_INFO := 0xCE
    IA32_PERF_STS := 0x198
    AMD_PERF_STS := 0xC0010042
    AMD_COFVID_STS := 0xC0010071
    tmrCvt := tmrCvt }

/-- A bare Intel machine: default family, no hypervisor, every register zero,
no `/efi/platform` properties and no boot arguments. -/
def bareIntel : Env :=
  { IsIntelCPU := true
    IsAmdCPU := false
    cpuid_vmm_present := false
    cpuid_vmm_tsc_frequency := 0
    cpuid_vmm_bus_frequency := 0
    cpuid_cpufamily := 0x6b5a4cd2
    cpuid_model := 26
    cpuid_family := 6
    rdmsr64 := fun _ => 0
    cpuRealFreq := 0
    efi_platform := true
    DTGetProperty := fun _ => none
    bootarg_cpuEFI := false
    bootarg_fsb := none
    bootarg_busratio := none }

/-- A Merom machine (model 15) whose `IA32_PERF_STS` reports ratio 10 and whose
firmware publishes no `FSBFrequency`. -/
def meromNoFSB : Env :=
  { bareIntel with
    cpuid_cpufamily := 0x426f69ef
    cpuid_model := 15
    rdmsr64 := fun a => if a = 0x198 then 10 <<< 40 else 0 }

/-- A Merom machine (model 15) with a 133 MHz `FSBFrequency` property and
ratio 20 in `IA32_PERF_STS`. -/
def merom133 : Env :=
  { bareIntel with
    cpuid_cpufamily := 0x426f69ef
    cpuid_model := 15
    rdmsr64 := fun a => if a = 0x198 then 20 <<< 40 else 0
    DTGetProperty := fun n =>
      if n = "FSBFrequency" then some { size := 8, value := 133000000 } else none }

/-- A Merom machine of model 1 whose firmware publishes a 500 Hz `FSBFrequency`
and, under `-cpuEFI`, a 2 GHz `CPUFrequency`. -/
def meromTinyFSB : Env :=
  { bareIntel with
    cpuid_cpufamily := 0x426f69ef
    cpuid_model := 1
    bootarg_cpuEFI := true
    DTGetProperty := fun n =>
      if n = "FSBFrequency" then some { size := 8, value := 500 }
      else if n = "CPUFrequency" then some { size := 8, value := 2000000000 }
      else none }

/-- An Intel guest whose hypervisor reports a 1,000 KHz TSC and a 2,000 KHz bus. -/
def vmmSlowTsc : Env :=
  { bareIntel with
    cpuid_vmm_present := true
    cpuid_vmm_tsc_frequency := 1000
    cpuid_vmm_bus_frequency := 2000 }

/-- An Intel guest whose hypervisor reports a 3,000,000 KHz TSC and a
100,000 KHz bus. -/
def vmm3GHz : Env :=
  { bareIntel with
    cpuid_vmm_present := true
    cpuid_vmm_tsc_frequency := 3000000
    cpuid_vmm_bus_frequency := 100000 }

/-- The globals of `meromNoFSB` when the family dispatch hands over to the tail. -/
def meromNoFSB_family : State :=
  { State.zero with tscGranularity := 10 }

/-- Globals on entry to the tail with a 133 MHz bus and ratio 20. -/
def bus133x20 : State :=
  { State.zero with busFreq := 133000000, tscGranularity := 20 }

/-- The Merom machine `merom133` booted with `busratio=125`. -/
def merom125 : Env :=
  { merom133 with bootarg_busratio := some 125 }

/-- A default-family Intel machine whose `MSR_PLATFORM_INFO` reports a maximum
ratio of 20, booted with `busratio=5`. -/
def nehalemBusratio : Env :=
  { bareIntel with
    rdmsr64 := fun a => if a = 0xCE then 20 <<< 8 else 0
    bootarg_busratio := some 5 }

/-- A Merom machine (model 15) with a 133 MHz `FSBFrequency` property whose
`IA32_PERF_STS` reports ratio 0 with the half-step bit 46 set. -/
def meromHalfOnly : Env :=
  { merom133 with rdmsr64 := fun a => if a = 0x198 then 1 <<< 46 else 0 }

/-- The `busratio` override as the specification words it: the granularity
and half-step flag that a supplied value `v` stands for. -/
def busratio_spec (v : Nat) : Nat × Bool :=
  if v = 0 then (1, false)
  else if v > 30 ∧ v % 10 ≠ 0 then (v / 10, true)
  else (v, false)

/-- The family branches that end in the `busratio` block: every AMD branch,
and on Intel the Merom/Penryn, Pentium 4 and Pentium M cases. -/
def applies_busratio (k : Config) (e : Env) : Prop :=
  e.IsIntelCPU = true →
    e.cpuid_cpufamily = k.CPUFAMILY_INTEL_MEROM ∨
    e.cpuid_cpufamily = k.CPUFAMILY_INTEL_PENRYN ∨
    e.cpuid_cpufamily = k.CPU_FAMILY_PENTIUM_4 ∨
    e.cpuid_cpufamily = CPU_FAMILY_PENTIUM_M

/-- The one situation in which the family dispatch, run on the all-zero
globals, asks `getFakeMSR` to divide by `bFreq / 1000 = 0`: a Merom/Penryn
machine of model below 2 with a nonzero CPU frequency and an `FSBFrequency`
property between 1 and 999. -/
def fake_msr_faults (k : Config) (e : Env) : Prop :=
  e.IsIntelCPU = true ∧
    (e.cpuid_cpufamily = k.CPUFAMILY_INTEL_MEROM ∨
      e.cpuid_cpufamily = k.CPUFAMILY_INTEL_PENRYN) ∧
    e.cpuid_model < 2 ∧ EFI_CPU_Frequency e ≠ 0 ∧
    0 < (EFI_get_frequency e "FSBFrequency" State.zero).1 ∧
    (EFI_get_frequency e "FSBFrequency" State.zero).1 < 1000

/-- Globals on entry to the tail with a bus frequency of `f` Hz. -/
def busOnly (f : Nat) : State :=
  { State.zero with busFreq := f }

/-- A Merom machine (model 15) whose firmware publishes a 50 MHz `FSBFrequency`
(8 bytes) and whose `IA32_PERF_STS` reports ratio 20. -/
def merom50 : Env :=
  { merom133 with
    DTGetProperty := fun n =>
      if n = "FSBFrequency" then some { size := 8, value := 50000000 } else none }

/-- An AMD machine of an unrecognised family (23) running at 3 GHz whose
firmware publishes a 50 MHz `FSBFrequency` (8 bytes). -/
def amdOther50 : Env :=
  { bareIntel with
    IsIntelCPU := false
    IsAmdCPU := true
    cpuid_cpufamily := 0
    cpuid_family := 23
    cpuid_model := 1
    cpuRealFreq := 3000000000
    DTGetProperty := fun n =>
      if n = "FSBFrequency" then some { size := 8, value := 50000000 } else none }

/-- The AMD families `tsc_init` has a case for: 15, 16, 18, 6, 20, 21, 22. -/
def recognized_amd (e : Env) : Prop :=
  e.cpuid_family = 15 ∨ (e.cpuid_family = 16 ∨ e.cpuid_family = 18) ∨
    (e.cpuid_family = 6 ∨ e.cpuid_family = 20 ∨ e.cpuid_family = 21 ∨ e.cpuid_family = 22)

instance (e : Env) : Decidable (recognized_amd e) := by
  unfold recognized_amd
  infer_instance

/-- A default-family Intel machine whose `MSR_PLATFORM_INFO` reports maximum
ratio 20 and minimum ratio 8, whose `MSR_FLEX_RATIO` is enabled (bit 16) with
ratio 18, and whose firmware publishes a 100 MHz `FSBFrequency`. -/
def nehalemFlex : Env :=
  { bareIntel with
    rdmsr64 := fun a =>
      if a = 0xCE then 20 <<< 8 ||| 8 <<< 40
      else if a = 0x194 then 18 <<< 8 ||| 1 <<< 16
      else 0
    DTGetProperty := fun n =>
      if n = "FSBFrequency" then some { size := 8, value := 100000000 } else none }

/-- A machine whose `/efi/platform` entry publishes an 8-byte `InitialTSC` of
123,456,789 but no `FSBFrequency`. -/
def initialTscOnly : Env :=
  { bareIntel with
    DTGetProperty := fun n =>
      if n = "InitialTSC" then some { size := 8, value := 123456789 } else none }

/-- A machine whose `/efi/platform` entry publishes an 8-byte `InitialTSC` of
123,456,789 and a 4-byte `FSBFrequency`. -/
def initialTscShortFSB : Env :=
  { bareIntel with
    DTGetProperty := fun n =>
      if n = "InitialTSC" then some { size := 8, value := 123456789 }
      else if n = "FSBFrequency" then some { size := 4, value := 133000000 }
      else none }

/-- A Merom machine of model 2 with a 133 MHz `FSBFrequency`, ratio 10 in
`IA32_PERF_STS` and ratio 7 in bits 24-31 of register `0x2C`. -/
def meromModel2 : Env :=
  { merom133 with
    cpuid_model := 2
    rdmsr64 := fun a => if a = 0x198 then 10 <<< 40 else if a = 0x2C then 7 <<< 24 else 0 }

/-- An AMD K8 machine (family 15) running at 2.5 GHz, booted with `fsb=200`. -/
def amdK8 : Env :=
  { bareIntel with
    IsIntelCPU := false
    IsAmdCPU := true
    cpuid_cpufamily := 0
    cpuid_family := 15
    cpuid_model := 4
    cpuRealFreq := 2500000000
    bootarg_fsb := some 200 }

/-- An AMD K10 machine (family 16) running at 3 GHz, with no boot arguments. -/
def amdK10 : Env :=
  { bareIntel with
    IsIntelCPU := false
    IsAmdCPU := true
    cpuid_cpufamily := 0
    cpuid_family := 16
    cpuid_model := 4
    cpuRealFreq := 3000000000 }

/-- The globals after the pass on `merom125`. -/
def merom125_result : State :=
  { busFCvtt2n := 32292987187, busFCvtn2t := 571230650, tscFreq := 1662500000,
    tscFCvtt2n := 2583438974, tscFCvtn2t := 7140383132, tscGranularity := 12,
    bus2tsc := 12, busFreq := 133000000, flex_ratio := 0, flex_ratio_min := 0,
    flex_ratio_max := 0, tsc_at_boot := 0 }

/-- The globals of lines 70-82 as `tsc_init` can find them on entry: the static
zero initialisers, or what an earlier pass that returned left behind; they are
assigned only while `tsc_init` runs. -/
inductive Calibrated (k : Config) : State → Prop
  | zero : Calibrated k State.zero
  | step {e : Env} {s s' : State} : Calibrated k s → tsc_init k e s = some s' →
      Calibrated k s'

/-- An Intel guest whose hypervisor reports a 133,000 KHz TSC and a
133,000 KHz bus. -/
def vmm133 : Env :=
  { bareIntel with
    cpuid_vmm_present := true
    cpuid_vmm_tsc_frequency := 133000
    cpuid_vmm_bus_frequency := 133000 }

/-- The globals after the pass on `vmm133` from the all-zero state. -/
def vmm133_result : State :=
  { busFCvtt2n := 32292987187, busFCvtn2t := 571230650, tscFreq := 133000000,
    tscFCvtt2n := 32292987187, tscFCvtn2t := 571230650, tscGranularity := 1,
    bus2tsc := 0, busFreq := 133000000, flex_ratio := 0, flex_ratio_min := 0,
    flex_ratio_max := 0, tsc_at_boot := 0 }

/-- The globals of `merom133`, entered with `vmm133_result`, when the family
dispatch hands over to the tail: the ratio 20 is stored and `tscFreq` still
equals the 133 MHz bus. -/
def merom133_reentry : State :=
  { vmm133_result with tscGranularity := 20 }

/-- The conversion factors and `tscFreq` agree in two states. -/
def SameFactors (s s' : State) : Prop :=
  s'.tscFreq = s.tscFreq ∧ s'.busFCvtt2n = s.busFCvtt2n ∧ s'.busFCvtn2t = s.busFCvtn2t ∧
    s'.tscFCvtt2n = s.tscFCvtt2n ∧ s'.tscFCvtn2t = s.tscFCvtn2t ∧ s'.bus2tsc = s.bus2tsc

instance (k : Config) (e : Env) : Decidable (applies_busratio k e) := by
  unfold applies_busratio
  infer_instance

instance (k : Config) (e : Env) : Decidable (fake_msr_faults k e) := by
  unfold fake_msr_faults
  infer_instance

instance (s s' : State) : Decidable (SameFactors s s') := by
  unfold SameFactors
  infer_instance

end Tsc

namespace Tsc

/-! ## Basic facts -/

theorem udiv_of_ne_zero {a b : Nat} (h : b ≠ 0) : udiv a b = some (a / b) := by
  simp [udiv, h]

theorem udiv_zero (a : Nat) : udiv a 0 = none := by
  simp [udiv]

theorem udiv_eq_some {a b q : Nat} : udiv a b = some q ↔ b ≠ 0 ∧ q = a / b := by
  unfold udiv
  split <;> simp_all [eq_comm]

theorem GigaShl32_val : GigaShl32 = 4294967296000000000 := by decide

theorem two64_val : two64 = 18446744073709551616 := by decide

theorem two32_val : two32 = 4294967296 := by decide

theorem Mega_val : Mega = 1000000 := by decide

theorem vmm_tsc_frequency_lt (e : Env) : vmm_tsc_frequency e < 4294967296 := by
  simp only [vmm_tsc_frequency, two32_val]; omega

theorem vmm_bus_frequency_lt (e : Env) : vmm_bus_frequency e < 4294967296 := by
  simp only [vmm_bus_frequency, two32_val]; omega

theorem vmm_short_circuit_iff (e : Env) :
    vmm_short_circuit e = true ↔
      e.IsIntelCPU = true ∧ e.cpuid_vmm_present = true ∧
        vmm_tsc_frequency e ≠ 0 ∧ vmm_bus_frequency e ≠ 0 := by
  simp [vmm_short_circuit, and_assoc]

/-- The state the hypervisor short-circuit leaves behind, as a function of the
two reported frequencies only. -/
theorem tsc_init_of_vmm (k : Config) (e : Env) (s : State)
    (h : vmm_short_circuit e = true) :
    tsc_init k e s = some
      { s with
        busFreq := 1000 * vmm_bus_frequency e
        busFCvtt2n := GigaShl32 / (1000 * vmm_bus_frequency e)
        busFCvtn2t := UINT64_MAX / (GigaShl32 / (1000 * vmm_bus_frequency e))
        tscFreq := 1000 * vmm_tsc_frequency e
        tscFCvtt2n := GigaShl32 / (1000 * vmm_tsc_frequency e)
        tscFCvtn2t := UINT64_MAX / (GigaShl32 / (1000 * vmm_tsc_frequency e))
        tscGranularity := 1000 * vmm_tsc_frequency e / (1000 * vmm_bus_frequency e)
        bus2tsc := k.tmrCvt (GigaShl32 / (1000 * vmm_bus_frequency e))
          (UINT64_MAX / (GigaShl32 / (1000 * vmm_tsc_frequency e))) % two64 } := by
  obtain ⟨-, -, T0, B0⟩ := (vmm_short_circuit_iff e).1 h
  have T32 := vmm_tsc_frequency_lt e
  have B32 := vmm_bus_frequency_lt e
  have hb : vmm_bus_frequency e * kilo % two64 = 1000 * vmm_bus_frequency e := by
    simp only [kilo, two64_val]; omega
  have ht : vmm_tsc_frequency e * kilo % two64 = 1000 * vmm_tsc_frequency e := by
    simp only [kilo, two64_val]; omega
  have hb0 : 1000 * vmm_bus_frequency e ≠ 0 := by omega
  have ht0 : 1000 * vmm_tsc_frequency e ≠ 0 := by omega
  have hqb : GigaShl32 / (1000 * vmm_bus_frequency e) ≠ 0 := by
    rw [GigaShl32_val]
    have : 0 < 4294967296000000000 / (1000 * vmm_bus_frequency e) :=
      Nat.div_pos (by omega) (by omega)
    omega
  have hqt : GigaShl32 / (1000 * vmm_tsc_frequency e) ≠ 0 := by
    rw [GigaShl32_val]
    have : 0 < 4294967296000000000 / (1000 * vmm_tsc_frequency e) :=
      Nat.div_pos (by omega) (by omega)
    omega
  simp only [tsc_init, h, if_true, tsc_init_vmm, hb, ht,
    udiv_of_ne_zero hb0, udiv_of_ne_zero ht0, udiv_of_ne_zero hqb, udiv_of_ne_zero hqt,
    Option.some_bind]

/-! ## What the family dispatch leaves untouched -/

theorem SameFactors.refl (s : State) : SameFactors s s := by
  simp [SameFactors]

theorem SameFactors.trans {a b c : State} (h1 : SameFactors a b) (h2 : SameFactors b c) :
    SameFactors a c := by
  simp only [SameFactors] at *
  omega

theorem read_InitialTSC_frame (e : Env) (s : State) : SameFactors s (read_InitialTSC e s) := by
  unfold read_InitialTSC
  split
  · split <;> simp [SameFactors]
  · simp [SameFactors]

theorem EFI_get_frequency_frame (e : Env) (p : String) (s : State) :
    SameFactors s (EFI_get_frequency e p s).2 := by
  unfold EFI_get_frequency
  split
  · exact SameFactors.refl s
  · split
    · exact SameFactors.refl s
    · exact read_InitialTSC_frame e s

theorem EFI_FSB_frequency_frame (e : Env) (s : State) :
    SameFactors s (EFI_FSB_frequency e s).2 := by
  unfold EFI_FSB_frequency
  split
  · exact SameFactors.refl s
  · split
    · exact SameFactors.refl s
    · exact read_InitialTSC_frame e s

theorem busratio_bootarg_frame (e : Env) (s : State) (nb : Bool) :
    SameFactors s (busratio_bootarg e s nb).1 := by
  unfold busratio_bootarg
  split
  · exact SameFactors.refl s
  · dsimp only
    split <;> split <;> simp [SameFactors]

theorem perf_sts_ratio_frame (k : Config) (e : Env) (s : State) :
    SameFactors s (perf_sts_ratio k e s).1 := by
  simp [perf_sts_ratio, SameFactors]

theorem fake_msr_ratio_frame {e : Env} {s s1 : State} {nb : Bool}
    (h : fake_msr_ratio e s = some (s1, nb)) : SameFactors s s1 := by
  unfold fake_msr_ratio at h
  simp only [Option.bind_eq_some] at h
  obtain ⟨p, -, hp⟩ := h
  simp only [Option.some.injEq, Prod.mk.injEq] at hp
  rw [← hp.1]
  simp [SameFactors]

theorem busratio_bootarg_frame_of_eq {e : Env} {s s1 : State} {nb0 nb : Bool}
    (h : busratio_bootarg e s nb0 = (s1, nb)) : SameFactors s s1 := by
  have := busratio_bootarg_frame e s nb0
  rw [h] at this
  exact this

theorem tsc_init_pentium_4_frame {k : Config} {e : Env} {s s1 : State} {nb0 nb : Bool}
    (h : tsc_init_pentium_4 k e s nb0 = some (s1, nb)) : SameFactors s s1 := by
  unfold tsc_init_pentium_4 at h
  simp only [Option.bind_eq_some, Option.some.injEq] at h
  obtain ⟨⟨s2, nb2⟩, hr, hb⟩ := h
  refine SameFactors.trans ?_ (busratio_bootarg_frame_of_eq hb)
  split at hr
  · exact fake_msr_ratio_frame hr
  · split at hr
    · simp only [Option.some.injEq, Prod.mk.injEq] at hr
      rw [← hr.1]
      simp [SameFactors]
    · simp only [Option.some.injEq] at hr
      have := perf_sts_ratio_frame k e s
      rw [hr] at this
      exact this

theorem tsc_init_merom_penryn_frame {k : Config} {e : Env} {s s1 : State} {nb : Bool}
    (h : tsc_init_merom_penryn k e s = some (s1, nb)) : SameFactors s s1 := by
  unfold tsc_init_merom_penryn at h
  have h1 := tsc_init_pentium_4_frame h
  have h2 := EFI_get_frequency_frame e "FSBFrequency" (perf_sts_ratio k e s).1
  have h3 := perf_sts_ratio_frame k e s
  simp only [SameFactors] at *
  omega

theorem tsc_init_pentium_m_frame {k : Config} {e : Env} {s s1 : State} {nb : Bool}
    (h : tsc_init_pentium_m k e s = some (s1, nb)) : SameFactors s s1 := by
  unfold tsc_init_pentium_m at h
  simp only [Option.bind_eq_some, Option.some.injEq] at h
  obtain ⟨⟨s2, nb2⟩, hr, hb⟩ := h
  refine SameFactors.trans ?_ (busratio_bootarg_frame_of_eq hb)
  split at hr
  · simp only [Option.some.injEq] at hr
    have := perf_sts_ratio_frame k e s
    rw [hr] at this
    exact this
  · exact fake_msr_ratio_frame hr

theorem tsc_init_intel_default_frame {k : Config} {e : Env} {s s1 : State} {nb0 nb : Bool}
    (h : tsc_init_intel_default k e s nb0 = some (s1, nb)) : SameFactors s s1 := by
  unfold tsc_init_intel_default at h
  simp only [Option.some.injEq, Prod.mk.injEq] at h
  obtain ⟨h, -⟩ := h
  rw [← h]
  have hfr := EFI_get_frequency_frame e "FSBFrequency"
  split_ifs
  all_goals
    simp only [SameFactors] at *
    exact hfr _

theorem GetCpuMultiplayer_frame {e : Env} {s : State} {r : Nat × State}
    (h : GetCpuMultiplayer e s = some r) : SameFactors s r.2 := by
  unfold GetCpuMultiplayer at h
  simp only [Option.bind_eq_some, Option.some.injEq] at h
  obtain ⟨p, -, hp⟩ := h
  rw [← hp]
  simp [SameFactors]

theorem Detect_FSB_frequency_frame {e : Env} {s : State} {r : Nat × State}
    (h : Detect_FSB_frequency e s = some r) : SameFactors s r.2 := by
  unfold Detect_FSB_frequency at h
  split at h
  · simp only [Option.some.injEq] at h
    rw [← h]
    exact SameFactors.refl s
  · simp only [Option.bind_eq_some] at h
    obtain ⟨r1, h1, h2⟩ := h
    have hf := GetCpuMultiplayer_frame h1
    split at h2
    · simp only [Option.some.injEq] at h2
      rw [← h2]
      exact hf
    · simp only [Option.bind_eq_some] at h2
      obtain ⟨q, -, h3⟩ := h2
      split at h3 <;>
        (simp only [Option.some.injEq] at h3; rw [← h3]; exact hf)

theorem tsc_init_amd_k8_frame {e : Env} {s s1 : State} {nb : Bool}
    (h : tsc_init_amd_k8 e s = some (s1, nb)) : SameFactors s s1 := by
  unfold tsc_init_amd_k8 at h
  simp only [Option.bind_eq_some, Option.some.injEq] at h
  obtain ⟨r, hr, p, -, hb⟩ := h
  have h1 := Detect_FSB_frequency_frame hr
  have h2 := busratio_bootarg_frame_of_eq hb
  simp only [SameFactors] at *
  omega

theorem tsc_init_amd_k10_frame {e : Env} {s s1 : State} {nb : Bool}
    (h : tsc_init_amd_k10 e s = some (s1, nb)) : SameFactors s s1 := by
  unfold tsc_init_amd_k10 at h
  simp only [Option.bind_eq_some, Option.some.injEq] at h
  obtain ⟨r, hr, p, -, hb⟩ := h
  have h1 := Detect_FSB_frequency_frame hr
  have h2 := busratio_bootarg_frame_of_eq hb
  simp only [SameFactors] at *
  omega

theorem tsc_init_amd_apu_frame {e : Env} {s s1 : State} {nb : Bool}
    (h : tsc_init_amd_apu e s = some (s1, nb)) : SameFactors s s1 := by
  unfold tsc_init_amd_apu at h
  simp only [Option.bind_eq_some, Option.some.injEq, Prod.mk.injEq] at h
  obtain ⟨r, hr, p, -, hb, -⟩ := h
  have h1 := Detect_FSB_frequency_frame hr
  have h2 := busratio_bootarg_frame e
    { r.2 with busFreq := r.1, tscGranularity := bitfield p 44 40 % two32 }
    (decide (p &&& bit 46 ≠ 0))
  have h3 := EFI_FSB_frequency_frame e (busratio_bootarg e
    { r.2 with busFreq := r.1, tscGranularity := bitfield p 44 40 % two32 }
    (decide (p &&& bit 46 ≠ 0))).1
  rw [hb] at h3
  simp only [SameFactors] at *
  omega

theorem tsc_init_amd_default_frame {e : Env} {s s1 : State} {nb0 nb : Bool}
    (h : tsc_init_amd_default e s nb0 = some (s1, nb)) : SameFactors s s1 := by
  unfold tsc_init_amd_default at h
  simp only [Option.bind_eq_some, Option.some.injEq] at h
  obtain ⟨p, -, hb⟩ := h
  have h1 := EFI_FSB_frequency_frame e s
  have h2 := busratio_bootarg_frame_of_eq hb
  simp only [SameFactors] at *
  omega

/-- The family dispatch never touches `tscFreq` or a conversion factor. -/
theorem tsc_init_family_frame {k : Config} {e : Env} {s s1 : State} {nb : Bool}
    (h : tsc_init_family k e s = some (s1, nb)) : SameFactors s s1 := by
  unfold tsc_init_family at h
  split_ifs at h
  · exact tsc_init_merom_penryn_frame h
  · exact tsc_init_pentium_4_frame h
  · exact tsc_init_pentium_m_frame h
  · exact tsc_init_intel_default_frame h
  · exact tsc_init_amd_k8_frame h
  · exact tsc_init_amd_k10_frame h
  · exact tsc_init_amd_apu_frame h
  · exact tsc_init_amd_default_frame h

/-! ## The shared tail -/

/-- Once the bus frequency has been defaulted while `busFCvtt2n` is still zero,
the TSC half of the tail divides by a zero `tscFCvtt2n`. -/
theorem tsc_init_tail_none_of_bus_zero (k : Config) (s : State) (nb : Bool)
    (hb : s.busFreq = 0) (hc : s.busFCvtt2n = 0) (ht : s.tscFreq = 0) :
    tsc_init_tail k s nb = none := by
  have h1 : tsc_init_bus s = some { s with busFreq := 200 * Mega } := by
    simp [tsc_init_bus, hb]
  have hne : ¬ (0 = 200 * Mega) := by decide
  have hodd : (1 + 2 * s.tscGranularity) % two64 ≠ 0 := by
    rw [two64_val]; omega
  rw [tsc_init_tail, h1, Option.some_bind]
  simp only [tsc_init_tsc, ht, hc, hne, if_false]
  cases nb
  · by_cases hg : s.tscGranularity = 0
    · simp [hg, udiv_zero]
    · simp [udiv_of_ne_zero hg, udiv_zero]
  · simp [udiv_of_ne_zero hodd, udiv_zero]

theorem tsc_init_tsc_bus {k : Config} {s s' : State} {nb : Bool}
    (h : tsc_init_tsc k s nb = some s') :
    s'.busFreq = s.busFreq ∧ s'.busFCvtt2n = s.busFCvtt2n ∧ s'.busFCvtn2t = s.busFCvtn2t := by
  unfold tsc_init_tsc at h
  split_ifs at h
  · simp only [Option.some.injEq] at h
    rw [← h]
    exact ⟨rfl, rfl, rfl⟩
  · simp only [Option.bind_eq_some, Option.some.injEq] at h
    obtain ⟨_, _, _, _, _, _, hs⟩ := h
    rw [← hs]
    exact ⟨rfl, rfl, rfl⟩
  · simp only [Option.bind_eq_some, Option.some.injEq] at h
    obtain ⟨_, _, _, _, _, _, hs⟩ := h
    rw [← hs]
    exact ⟨rfl, rfl, rfl⟩

/-- A pass from the all-zero globals that does return publishes a nonzero
`busFreq` together with the bus factors derived from it. -/
theorem completed_pass_bus {k : Config} {e : Env} {s : State}
    (h : tsc_init k e State.zero = some s) :
    s.busFreq ≠ 0 ∧ s.busFCvtt2n = GigaShl32 / s.busFreq ∧
      s.busFCvtn2t = UINT64_MAX / s.busFCvtt2n := by
  cases hsc : vmm_short_circuit e
  · simp only [tsc_init, hsc, Bool.false_eq_true, if_false, Option.bind_eq_some] at h
    obtain ⟨⟨s1, nb⟩, hfam, htail⟩ := h
    obtain ⟨ht, hc, -⟩ := tsc_init_family_frame hfam
    by_cases hb : s1.busFreq = 0
    · rw [tsc_init_tail_none_of_bus_zero k s1 nb hb hc ht] at htail
      exact absurd htail (by simp)
    · simp only [tsc_init_tail, Option.bind_eq_some] at htail
      obtain ⟨s2, hbus, htsc⟩ := htail
      obtain ⟨h1, h2, h3⟩ := tsc_init_tsc_bus htsc
      simp only [tsc_init_bus, ne_eq, hb, not_false_eq_true, if_true, Option.bind_eq_some,
        Option.some.injEq] at hbus
      obtain ⟨q1, hq1, q2, hq2, hs2⟩ := hbus
      rw [h1, h2, h3, ← hs2]
      exact ⟨hb, (udiv_eq_some.1 hq1).2, (udiv_eq_some.1 hq2).2⟩
  · obtain ⟨-, -, -, B0⟩ := (vmm_short_circuit_iff e).1 hsc
    rw [tsc_init_of_vmm k e State.zero hsc] at h
    simp only [Option.some.injEq] at h
    rw [← h]
    exact ⟨by show 1000 * vmm_bus_frequency e ≠ 0; omega, rfl, rfl⟩

/-! ## Claims about the whole pass -/

/-- C1 (code defect): `tsc_init` is not total.  On a Merom machine without an
`FSBFrequency` property the pass defaults `busFreq` but divides by a zero
`tscFCvtt2n`; on a bare default-family machine it divides by a zero
`tscGranularity`; and on a Merom machine of model 1 with a 500 Hz bus property
`getFakeMSR` divides by `bFreq / 1000 = 0`.  Each run has no result. -/
theorem tsc_init_zero_divisors :
    tsc_init xnuConfig meromNoFSB State.zero = none ∧
      tsc_init xnuConfig bareIntel State.zero = none ∧
      getFakeMSR 2000000000 500 = none ∧
      tsc_init xnuConfig meromTinyFSB State.zero = none := by
  decide

/-- C2 (code defect): every pass that returns publishes
`busFCvtt2n = (10^9 * 2^32) / busFreq` and `busFCvtn2t = (2^64 - 1) / busFCvtt2n`,
but a pass that defaults the bus frequency is not among them: on the Merom
machine without an `FSBFrequency` property the bus half of the tail stores
`busFreq = 200,000,000` and leaves `busFCvtt2n` and `busFCvtn2t` at zero,
although `(10^9 * 2^32) / 200,000,000 = 21,474,836,480`, and the pass then has
no result. -/
theorem bus_factors_unset_when_defaulted :
    (∀ (k : Config) (e : Env) (s : State), tsc_init k e State.zero = some s →
        s.busFCvtt2n = (10 ^ 9 * 2 ^ 32) / s.busFreq ∧
          s.busFCvtn2t = (2 ^ 64 - 1) / s.busFCvtt2n) ∧
      ((tsc_init_family xnuConfig meromNoFSB State.zero).bind fun r =>
        (tsc_init_bus r.1).map fun s => (s.busFreq, s.busFCvtt2n, s.busFCvtn2t)) =
        some (200000000, 0, 0) ∧
      (10 ^ 9 * 2 ^ 32) / 200000000 = 21474836480 ∧
      tsc_init xnuConfig meromNoFSB State.zero = none := by
  refine ⟨?_, by decide, by decide, by decide⟩
  intro k e s h
  obtain ⟨-, h1, h2⟩ := completed_pass_bus h
  rw [GigaShl32_val] at h1
  rw [UINT64_MAX] at h2
  exact ⟨by rw [h1]; norm_num, by rw [h2]; norm_num⟩

/-- C3 (counterexample): with a hypervisor reporting a 1,000 KHz TSC and a
2,000 KHz bus the pass completes and publishes `tscGranularity = 0`; so does
the pass on a Merom machine whose register reports ratio 0 with the half-step
bit set. -/
theorem tscGranularity_zero_published :
    (∃ s, tsc_init xnuConfig vmmSlowTsc State.zero = some s ∧ ¬ 1 ≤ s.tscGranularity) ∧
      (tsc_init_family xnuConfig meromHalfOnly State.zero).map
          (fun r => (r.1.tscGranularity, r.2)) = some (0, true) ∧
      ∃ s, tsc_init xnuConfig meromHalfOnly State.zero = some s ∧ ¬ 1 ≤ s.tscGranularity :=
  ⟨⟨_, rfl, by decide⟩, by decide, ⟨_, rfl, by decide⟩⟩

/-- C4 (code defect): whenever the family strategy hands a zero `busFreq` to
the tail of a pass started from the all-zero state, the tail does store
`busFreq = 200,000,000`, but the pass then divides by a zero `tscFCvtt2n` and
has no result, so nothing is published. -/
theorem tsc_init_faults_when_bus_defaulted (k : Config) (e : Env) (s1 : State) (nb : Bool)
    (hv : vmm_short_circuit e = false)
    (hf : tsc_init_family k e State.zero = some (s1, nb))
    (hb : s1.busFreq = 0) :
    tsc_init_bus s1 = some { s1 with busFreq := 200000000 } ∧
      tsc_init k e State.zero = none := by
  obtain ⟨ht, hc, -⟩ := tsc_init_family_frame hf
  constructor
  · simp [tsc_init_bus, hb, Mega_val]
  · simp only [tsc_init, hv, Bool.false_eq_true, if_false, hf, Option.some_bind]
    exact tsc_init_tail_none_of_bus_zero k s1 nb hb hc ht

/-- C4 (witness): the Merom machine without an `FSBFrequency` property. -/
theorem tsc_init_faults_when_bus_defaulted_witness :
    tsc_init_family xnuConfig meromNoFSB State.zero = some (meromNoFSB_family, false) ∧
      tsc_init_bus meromNoFSB_family = some { meromNoFSB_family with busFreq := 200000000 } ∧
      tsc_init xnuConfig meromNoFSB State.zero = none :=
  ⟨by decide,
    tsc_init_faults_when_bus_defaulted xnuConfig meromNoFSB meromNoFSB_family false
      (by decide) (by decide) (by decide)⟩

/-- C5: on an Intel-compatible CPU with a hypervisor that reports nonzero TSC
and bus frequencies `T` and `B` (KHz, 32-bit), the pass returns the globals
with `busFreq = 1000*B`, `tscFreq = 1000*T`, both conversion pairs derived
directly from those frequencies and `tscGranularity = tscFreq / busFreq`; the
result mentions no register, firmware property or boot argument, the other
globals are untouched, and `T = 3,000,000`, `B = 100,000` give granularity 30. -/
theorem vmm_short_circuit_result (k : Config) (e : Env) (s : State) (T B : Nat)
    (hI : e.IsIntelCPU = true) (hP : e.cpuid_vmm_present = true)
    (hT : e.cpuid_vmm_tsc_frequency = T) (hB : e.cpuid_vmm_bus_frequency = B)
    (T0 : T ≠ 0) (B0 : B ≠ 0) (T32 : T < 2 ^ 32) (B32 : B < 2 ^ 32) :
    ∃ s', tsc_init k e s = some s' ∧
      s'.busFreq = 1000 * B ∧ s'.tscFreq = 1000 * T ∧
      s'.busFCvtt2n = (10 ^ 9 * 2 ^ 32) / s'.busFreq ∧
      s'.busFCvtn2t = (2 ^ 64 - 1) / s'.busFCvtt2n ∧
      s'.tscFCvtt2n = (10 ^ 9 * 2 ^ 32) / s'.tscFreq ∧
      s'.tscFCvtn2t = (2 ^ 64 - 1) / s'.tscFCvtt2n ∧
      s'.tscGranularity = s'.tscFreq / s'.busFreq ∧
      s'.bus2tsc = k.tmrCvt s'.busFCvtt2n s'.tscFCvtn2t % 2 ^ 64 ∧
      s'.flex_ratio = s.flex_ratio ∧ s'.flex_ratio_min = s.flex_ratio_min ∧
      s'.flex_ratio_max = s.flex_ratio_max ∧ s'.tsc_at_boot = s.tsc_at_boot ∧
      (T = 3000000 → B = 100000 → s'.tscGranularity = 30) := by
  have hTm : vmm_tsc_frequency e = T := by
    simp only [vmm_tsc_frequency, hT, two32_val]; omega
  have hBm : vmm_bus_frequency e = B := by
    simp only [vmm_bus_frequency, hB, two32_val]; omega
  have hsc : vmm_short_circuit e = true :=
    (vmm_short_circuit_iff e).2 ⟨hI, hP, by omega, by omega⟩
  refine ⟨_, tsc_init_of_vmm k e s hsc, ?_⟩
  simp only [hTm, hBm, GigaShl32_val, UINT64_MAX, two64_val]
  refine ⟨trivial, trivial, by norm_num, by norm_num, by norm_num, by norm_num, trivial,
    by norm_num, trivial, trivial, trivial, trivial, ?_⟩
  intro h1 h2
  subst h1; subst h2
  norm_num

/-- C5 (witness): the guest whose hypervisor reports 3,000,000 KHz and
100,000 KHz. -/
theorem vmm_short_circuit_result_witness :
    ∃ s', tsc_init xnuConfig vmm3GHz State.zero = some s' ∧
      s'.busFreq = 1000 * 100000 ∧ s'.tscFreq = 1000 * 3000000 ∧
      s'.busFCvtt2n = (10 ^ 9 * 2 ^ 32) / s'.busFreq ∧
      s'.busFCvtn2t = (2 ^ 64 - 1) / s'.busFCvtt2n ∧
      s'.tscFCvtt2n = (10 ^ 9 * 2 ^ 32) / s'.tscFreq ∧
      s'.tscFCvtn2t = (2 ^ 64 - 1) / s'.tscFCvtt2n ∧
      s'.tscGranularity = s'.tscFreq / s'.busFreq ∧
      s'.bus2tsc = xnuConfig.tmrCvt s'.busFCvtt2n s'.tscFCvtn2t % 2 ^ 64 ∧
      s'.flex_ratio = State.zero.flex_ratio ∧
      s'.flex_ratio_min = State.zero.flex_ratio_min ∧
      s'.flex_ratio_max = State.zero.flex_ratio_max ∧
      s'.tsc_at_boot = State.zero.tsc_at_boot ∧
      ((3000000 : Nat) = 3000000 → (100000 : Nat) = 100000 → s'.tscGranularity = 30) :=
  vmm_short_circuit_result xnuConfig vmm3GHz State.zero 3000000 100000 rfl rfl rfl rfl
    (by decide) (by decide) (by decide) (by decide)

/-! ## Claims about the shared tail -/

/-- The value the tail stores in `tscFreq` for an integral ratio: the scale
divided twice, then the scale divided by that. -/
theorem derived_tscFreq_bounds (f g : Nat) (f0 : f ≠ 0) (g1 : 1 ≤ g) (hfg : f * g ≤ 2 ^ 32) :
    GigaShl32 / f / g ≠ 0 ∧ f * g ≤ GigaShl32 / (GigaShl32 / f / g) ∧
      GigaShl32 / (GigaShl32 / f / g) < f * g + 10 := by
  rw [GigaShl32_val, Nat.div_div_eq_div_mul]
  have hn : 0 < f * g := Nat.mul_pos (by omega) (by omega)
  generalize f * g = n at hfg hn
  have hn32 : n ≤ 4294967296 := by simpa using hfg
  have hb : 1000000000 ≤ 4294967296000000000 / n :=
    (Nat.le_div_iff_mul_le hn).2 (by omega)
  have hbpos : 0 < 4294967296000000000 / n := by omega
  have h1 : 4294967296000000000 / n * n ≤ 4294967296000000000 := Nat.div_mul_le_self _ _
  have h2 : 4294967296000000000 < 4294967296000000000 / n * n + n := by
    have := Nat.div_add_mod 4294967296000000000 n
    have := Nat.mod_lt 4294967296000000000 hn
    nlinarith
  generalize 4294967296000000000 / n = b at hb hbpos h1 h2
  refine ⟨by omega, ?_, ?_⟩
  · exact (Nat.le_div_iff_mul_le hbpos).2 (by nlinarith)
  · exact (Nat.div_lt_iff_lt_mul hbpos).2 (by nlinarith)

/-- C6: in the shared tail, for a nonzero bus frequency `f`, a granularity
`g ≥ 1`, the half-step flag cleared, `tscFreq` on entry different from `f` and
`f*g ≤ 2^32`, the tail returns and the derived `tscFreq` lies in
`[f*g, f*g + 10)`; `f = 133,000,000` and `g = 20` give exactly 2,660,000,000. -/
theorem tail_tscFreq_bounds (k : Config) (s : State) (f g : Nat)
    (hf : s.busFreq = f) (hg : s.tscGranularity = g) (f0 : f ≠ 0) (g1 : 1 ≤ g)
    (hne : s.tscFreq ≠ f) (hfg : f * g ≤ 2 ^ 32) :
    ∃ s', tsc_init_tail k s false = some s' ∧
      f * g ≤ s'.tscFreq ∧ s'.tscFreq < f * g + 10 ∧
      (f = 133000000 → g = 20 → s'.tscFreq = 2660000000) := by
  obtain ⟨hq, hlo, hhi⟩ := derived_tscFreq_bounds f g f0 g1 hfg
  have hg0 : g ≠ 0 := by omega
  have ha : GigaShl32 / f ≠ 0 := by
    intro h0
    rw [h0] at hq
    simp at hq
  have hbus : tsc_init_bus s = some
      { s with busFCvtt2n := GigaShl32 / f, busFCvtn2t := UINT64_MAX / (GigaShl32 / f) } := by
    simp only [tsc_init_bus, hf, ne_eq, f0, not_false_eq_true, if_true,
      udiv_of_ne_zero f0, udiv_of_ne_zero ha, Option.some_bind]
  have key : tsc_init_tail k s false = some
      { s with
        busFCvtt2n := GigaShl32 / f
        busFCvtn2t := UINT64_MAX / (GigaShl32 / f)
        tscFCvtt2n := GigaShl32 / f / g
        tscFreq := GigaShl32 / (GigaShl32 / f / g)
        tscFCvtn2t := UINT64_MAX / (GigaShl32 / f / g)
        bus2tsc := k.tmrCvt (GigaShl32 / f) (UINT64_MAX / (GigaShl32 / f / g)) % two64 } := by
    rw [tsc_init_tail, hbus, Option.some_bind]
    simp only [tsc_init_tsc, hf, hg, hne, if_false, Bool.false_eq_true,
      udiv_of_ne_zero hg0, udiv_of_ne_zero hq, Option.some_bind]
  refine ⟨_, key, hlo, hhi, ?_⟩
  intro h1 h2
  subst h1; subst h2
  show GigaShl32 / (GigaShl32 / 133000000 / 20) = 2660000000
  decide

/-- C6 (witness): a 133 MHz bus with ratio 20. -/
theorem tail_tscFreq_bounds_witness :
    ∃ s', tsc_init_tail xnuConfig bus133x20 false = some s' ∧
      133000000 * 20 ≤ s'.tscFreq ∧ s'.tscFreq < 133000000 * 20 + 10 ∧
      ((133000000 : Nat) = 133000000 → (20 : Nat) = 20 → s'.tscFreq = 2660000000) :=
  tail_tscFreq_bounds xnuConfig bus133x20 133000000 20 rfl rfl (by decide) (by decide)
    (by decide) (by decide)

/-! ## The synthesised register -/

theorem bitmask_44_40 : bitmask 44 40 = 0x1F0000000000 := by decide

theorem bit_46 : bit 46 = 0x400000000000 := by decide

theorem bitfield_44_40_le (x : Nat) : bitfield x 44 40 ≤ 31 := by
  unfold bitfield
  rw [bitmask_44_40, Nat.shiftRight_eq_div_pow]
  have h : x &&& 0x1F0000000000 ≤ 0x1F0000000000 := Nat.and_le_right
  have h2 := Nat.div_le_div_right (c := 2 ^ 40) h
  have h3 : 0x1F0000000000 / 2 ^ 40 = 31 := by norm_num
  omega

theorem getFakeMSR_zero_right (frequency : Nat) : getFakeMSR frequency 0 = some 0 := by
  simp [getFakeMSR]

theorem getFakeMSR_zero_left (bFreq : Nat) : getFakeMSR 0 bFreq = some 0 := by
  simp [getFakeMSR]

/-- The register `getFakeMSR` returns once its divisor `bFreq / 1000` is
nonzero. -/
theorem getFakeMSR_of_ge (frequency bFreq : Nat) (hf : frequency ≠ 0) (hb : 1000 ≤ bFreq) :
    getFakeMSR frequency bFreq = some
      (((frequency / (bFreq / 1000) + 250) % 2 ^ 64 / 1000 * 2 ^ 40 % 2 ^ 64) |||
        (if 250 < frequency / (bFreq / 1000) % 1000 ∧ frequency / (bFreq / 1000) % 1000 < 750
          then 2 ^ 46 else 0)) := by
  have hb0 : bFreq ≠ 0 := by omega
  have hd : bFreq / 1000 ≠ 0 := by omega
  simp only [getFakeMSR, hf, hb0, or_self, if_false, udiv_of_ne_zero hd, Option.some_bind,
    Nat.shiftLeft_eq, two64, one_mul, gt_iff_lt]
  split <;> simp

theorem getFakeMSR_isSome (frequency bFreq : Nat)
    (h : frequency = 0 ∨ bFreq = 0 ∨ 1000 ≤ bFreq) : ∃ p, getFakeMSR frequency bFreq = some p := by
  by_cases hf : frequency = 0
  · exact ⟨0, by rw [hf]; exact getFakeMSR_zero_left bFreq⟩
  · by_cases hb : bFreq = 0
    · exact ⟨0, by rw [hb]; exact getFakeMSR_zero_right frequency⟩
    · exact ⟨_, getFakeMSR_of_ge frequency bFreq hf (by omega)⟩

/-! ## The `busratio` override -/

/-- The boot-argument block computes the override the specification describes
and writes nothing but `tscGranularity`. -/
theorem busratio_bootarg_of_some (e : Env) (s : State) (nb : Bool) (v : Nat)
    (hv : e.bootarg_busratio = some v) (v64 : v < 2 ^ 64) :
    busratio_bootarg e s nb =
      ({ s with tscGranularity := (busratio_spec v).1 }, (busratio_spec v).2) := by
  have hm : v % two64 = v := Nat.mod_eq_of_lt (by rw [two64_val]; norm_num at v64; omega)
  unfold busratio_bootarg busratio_spec
  rw [hv]
  simp only [hm]
  by_cases h0 : v = 0
  · subst h0
    simp
  · by_cases h1 : v > 30 ∧ v % 10 ≠ 0
    · have h30 : 30 < v := h1.1
      have h10 : ¬ v % 10 = 0 := h1.2
      simp [h0, h30, h10]
    · simp only [h0, h1, if_false]
      have hb : (decide (v > 30) && decide (v % 10 ≠ 0)) = false := by
        simpa using h1
      simp only [hb, Bool.false_eq_true, if_false]

theorem busratio_bootarg_spec_of_eq {e : Env} {s s1 : State} {nb0 nb : Bool} {v : Nat}
    (hv : e.bootarg_busratio = some v) (v64 : v < 2 ^ 64)
    (h : busratio_bootarg e s nb0 = (s1, nb)) :
    (s1.tscGranularity, nb) = busratio_spec v := by
  rw [busratio_bootarg_of_some e s nb0 v hv v64] at h
  simp only [Prod.mk.injEq] at h
  rw [← h.1, ← h.2]

theorem read_InitialTSC_tscGranularity (e : Env) (s : State) :
    (read_InitialTSC e s).tscGranularity = s.tscGranularity := by
  unfold read_InitialTSC
  split
  · split <;> rfl
  · rfl

theorem EFI_FSB_frequency_tscGranularity (e : Env) (s : State) :
    (EFI_FSB_frequency e s).2.tscGranularity = s.tscGranularity := by
  unfold EFI_FSB_frequency
  split
  · rfl
  · split
    · rfl
    · exact read_InitialTSC_tscGranularity e s

/-- Every branch that ends in the boot-argument block hands the override's
granularity and flag to the tail. -/
theorem tsc_init_family_override {k : Config} {e : Env} {s s1 : State} {nb : Bool} {v : Nat}
    (hv : e.bootarg_busratio = some v) (v64 : v < 2 ^ 64) (ha : applies_busratio k e)
    (h : tsc_init_family k e s = some (s1, nb)) :
    (s1.tscGranularity, nb) = busratio_spec v := by
  unfold tsc_init_family at h
  split_ifs at h with hI h1 h2 h3 h4 h5 h6
  · simp only [tsc_init_merom_penryn, tsc_init_pentium_4, Option.bind_eq_some,
      Option.some.injEq] at h
    obtain ⟨r, -, hb⟩ := h
    exact busratio_bootarg_spec_of_eq hv v64 hb
  · simp only [tsc_init_pentium_4, Option.bind_eq_some, Option.some.injEq] at h
    obtain ⟨r, -, hb⟩ := h
    exact busratio_bootarg_spec_of_eq hv v64 hb
  · simp only [tsc_init_pentium_m, Option.bind_eq_some, Option.some.injEq] at h
    obtain ⟨r, -, hb⟩ := h
    exact busratio_bootarg_spec_of_eq hv v64 hb
  · exfalso
    rcases ha hI with h' | h' | h' | h'
    · exact h1 (Or.inl h')
    · exact h1 (Or.inr h')
    · exact h2 h'
    · exact h3 h'
  · simp only [tsc_init_amd_k8, Option.bind_eq_some, Option.some.injEq] at h
    obtain ⟨r, -, p, -, hb⟩ := h
    exact busratio_bootarg_spec_of_eq hv v64 hb
  · simp only [tsc_init_amd_k10, Option.bind_eq_some, Option.some.injEq] at h
    obtain ⟨r, -, p, -, hb⟩ := h
    exact busratio_bootarg_spec_of_eq hv v64 hb
  · simp only [tsc_init_amd_apu, Option.bind_eq_some, Option.some.injEq, Prod.mk.injEq] at h
    obtain ⟨r, -, p, -, hs, hn⟩ := h
    rw [← hs, ← hn, EFI_FSB_frequency_tscGranularity]
    exact busratio_bootarg_spec_of_eq hv v64 rfl
  · simp only [tsc_init_amd_default, Option.bind_eq_some, Option.some.injEq] at h
    obtain ⟨p, -, hb⟩ := h
    exact busratio_bootarg_spec_of_eq hv v64 hb

/-! ## When the family dispatch returns -/

theorem EFI_get_frequency_fst (e : Env) (p : String) (s s' : State) :
    (EFI_get_frequency e p s).1 = (EFI_get_frequency e p s').1 := by
  unfold EFI_get_frequency
  split
  · rfl
  · split <;> rfl

theorem EFI_FSB_frequency_range (e : Env) (s : State) :
    (EFI_FSB_frequency e s).1 = 0 ∨ 1000 ≤ (EFI_FSB_frequency e s).1 := by
  unfold EFI_FSB_frequency
  split
  · exact Or.inl rfl
  · split
    · exact Or.inl rfl
    · dsimp only
      split_ifs with h1 h2
      all_goals first
        | exact Or.inl rfl
        | (right; simp only [Mega_val] at *; omega)

theorem fsb_times_Mega_range (res : Int) :
    fsb_times_Mega res = 0 ∨ 1000 ≤ fsb_times_Mega res := by
  have key : ∀ r : Int, -2147483648 ≤ r → r < 2147483648 →
      r * 1000000 % 18446744073709551616 = r * 1000000 ∨
        r * 1000000 % 18446744073709551616 = r * 1000000 + 18446744073709551616 := by
    intro r hlo hhi
    by_cases h0 : 0 ≤ r
    · exact Or.inl (Int.emod_eq_of_lt (by omega) (by omega))
    · right
      have h := Int.emod_eq_of_lt (a := r * 1000000 + 18446744073709551616)
        (b := 18446744073709551616) (by omega) (by omega)
      rw [Int.add_emod_self] at h
      exact h
  unfold fsb_times_Mega
  simp only [Mega_val, two64_val]
  norm_num
  have hr1 : -2147483648 ≤ (res + 2147483648) % 4294967296 - 2147483648 := by omega
  have hr2 : (res + 2147483648) % 4294967296 - 2147483648 < 2147483648 := by omega
  generalize (res + 2147483648) % 4294967296 - 2147483648 = r at hr1 hr2
  rcases key r hr1 hr2 with h | h <;> rw [h] <;> omega

theorem bitfield_44_40_of_small (frequency : Nat) (h : frequency / (200 * Mega / 1000) < 750)
    (p : Nat) (hp : getFakeMSR frequency (200 * Mega) = some p) : bitfield p 44 40 = 0 := by
  by_cases hf : frequency = 0
  · rw [hf, getFakeMSR_zero_left] at hp
    simp only [Option.some.injEq] at hp
    rw [← hp]
    decide
  · rw [getFakeMSR_of_ge frequency (200 * Mega) hf (by decide)] at hp
    simp only [Option.some.injEq] at hp
    generalize frequency / (200 * Mega / 1000) = m at h hp
    have h1 : (m + 250) % 2 ^ 64 / 1000 = 0 := by
      have : (m + 250) % 2 ^ 64 = m + 250 := Nat.mod_eq_of_lt (by norm_num; omega)
      rw [this]
      omega
    rw [h1] at hp
    rw [← hp]
    split <;> decide

/-- Bus-frequency autodetection always returns, with a value that is either 0
or at least 1000. -/
theorem Detect_FSB_frequency_total (e : Env) (s : State) :
    ∃ r, Detect_FSB_frequency e s = some r ∧ (r.1 = 0 ∨ 1000 ≤ r.1) := by
  unfold Detect_FSB_frequency
  split
  · exact ⟨_, rfl, fsb_times_Mega_range _⟩
  · obtain ⟨p, hp⟩ := getFakeMSR_isSome (EFI_CPU_Frequency e) (200 * Mega)
      (Or.inr (Or.inr (by decide)))
    have hg : GetCpuMultiplayer e s = some
        (bitfield p 44 40,
          { s with busFreq := 200 * Mega, tscGranularity := bitfield p 44 40 }) := by
      simp only [GetCpuMultiplayer, hp, Option.some_bind]
    rw [hg, Option.some_bind]
    dsimp only
    split_ifs with h1
    · refine ⟨_, rfl, Or.inr ?_⟩
      show 1000 ≤ 200 * Mega
      decide
    · have hm : bitfield p 44 40 ≠ 0 := fun h => h1 (Or.inl h)
      rw [udiv_of_ne_zero hm, Option.some_bind]
      split_ifs with h2
      · refine ⟨_, rfl, Or.inr ?_⟩
        show 1000 ≤ EFI_CPU_Frequency e / bitfield p 44 40
        have hle := bitfield_44_40_le p
        have hbig : ¬ EFI_CPU_Frequency e / (200 * Mega / 1000) < 750 :=
          fun h => hm (bitfield_44_40_of_small _ h p hp)
        have hd : 200 * Mega / 1000 = 200000 := by decide
        rw [hd] at hbig
        have hc : 150000000 ≤ EFI_CPU_Frequency e := by omega
        refine (Nat.le_div_iff_mul_le (by omega)).2 ?_
        nlinarith
      · refine ⟨_, rfl, Or.inr ?_⟩
        show 1000 ≤ 200 * Mega
        decide

theorem fake_msr_ratio_isSome (e : Env) (s : State)
    (h : EFI_CPU_Frequency e = 0 ∨ s.busFreq = 0 ∨ 1000 ≤ s.busFreq) :
    ∃ r, fake_msr_ratio e s = some r := by
  obtain ⟨p, hp⟩ := getFakeMSR_isSome _ _ h
  exact ⟨_, by simp only [fake_msr_ratio, hp, Option.some_bind]; rfl⟩

theorem tsc_init_pentium_4_isSome (k : Config) (e : Env) (s : State) (nb : Bool)
    (h : e.cpuid_model < 2 → EFI_CPU_Frequency e = 0 ∨ s.busFreq = 0 ∨ 1000 ≤ s.busFreq) :
    ∃ r, tsc_init_pentium_4 k e s nb = some r := by
  unfold tsc_init_pentium_4
  split_ifs with h1 h2
  · obtain ⟨r, hr⟩ := fake_msr_ratio_isSome e s (h h1)
    exact ⟨_, by rw [hr, Option.some_bind]⟩
  · exact ⟨_, by rw [Option.some_bind]⟩
  · exact ⟨_, by rw [Option.some_bind]⟩

theorem tsc_init_pentium_m_isSome (k : Config) (e : Env) (s : State)
    (h : EFI_CPU_Frequency e = 0 ∨ s.busFreq = 0 ∨ 1000 ≤ s.busFreq) :
    ∃ r, tsc_init_pentium_m k e s = some r := by
  unfold tsc_init_pentium_m
  split_ifs with h1
  · exact ⟨_, by rw [Option.some_bind]⟩
  · obtain ⟨r, hr⟩ := fake_msr_ratio_isSome e s h
    exact ⟨_, by rw [hr, Option.some_bind]⟩

theorem amd_fake_msr_isSome (e : Env) (s : State) :
    ∃ r p, Detect_FSB_frequency e s = some r ∧
      getFakeMSR (EFI_CPU_Frequency e) r.1 = some p := by
  obtain ⟨r, hr, hrange⟩ := Detect_FSB_frequency_total e s
  obtain ⟨p, hp⟩ := getFakeMSR_isSome (EFI_CPU_Frequency e) r.1 (Or.inr hrange)
  exact ⟨r, p, hr, hp⟩

/-- Run on the all-zero globals, the family dispatch returns on every machine
except the one on which `getFakeMSR` divides by zero. -/
theorem tsc_init_family_total (k : Config) (e : Env) (h : ¬ fake_msr_faults k e) :
    ∃ r, tsc_init_family k e State.zero = some r := by
  unfold tsc_init_family
  split_ifs with hI h1 h2 h3 h4 h5 h6
  · unfold tsc_init_merom_penryn
    apply tsc_init_pentium_4_isSome
    intro hm
    show EFI_CPU_Frequency e = 0 ∨
      (EFI_get_frequency e "FSBFrequency" (perf_sts_ratio k e State.zero).1).1 = 0 ∨
      1000 ≤ (EFI_get_frequency e "FSBFrequency" (perf_sts_ratio k e State.zero).1).1
    rw [EFI_get_frequency_fst e "FSBFrequency" _ State.zero]
    by_contra hc
    apply h
    refine ⟨hI, h1, hm, ?_, ?_, ?_⟩
    · exact fun h0 => hc (Or.inl h0)
    · exact Nat.pos_of_ne_zero fun h0 => hc (Or.inr (Or.inl h0))
    · exact Nat.lt_of_not_le fun h0 => hc (Or.inr (Or.inr h0))
  · exact tsc_init_pentium_4_isSome k e State.zero false fun _ => Or.inr (Or.inl rfl)
  · exact tsc_init_pentium_m_isSome k e State.zero (Or.inr (Or.inl rfl))
  · exact ⟨_, rfl⟩
  · obtain ⟨r, p, hr, hp⟩ := amd_fake_msr_isSome e State.zero
    exact ⟨_, by simp only [tsc_init_amd_k8, hr, hp, Option.some_bind]; rfl⟩
  · obtain ⟨r, p, hr, hp⟩ := amd_fake_msr_isSome e State.zero
    exact ⟨_, by simp only [tsc_init_amd_k10, hr, hp, Option.some_bind]; rfl⟩
  · obtain ⟨r, p, hr, hp⟩ := amd_fake_msr_isSome e State.zero
    exact ⟨_, by simp only [tsc_init_amd_apu, hr, hp, Option.some_bind]; rfl⟩
  · obtain ⟨p, hp⟩ := getFakeMSR_isSome (EFI_CPU_Frequency e)
      (EFI_FSB_frequency e State.zero).1 (Or.inr (EFI_FSB_frequency_range e State.zero))
    exact ⟨_, by simp only [tsc_init_amd_default, hp, Option.some_bind]; rfl⟩

/-- From globals whose `tscFreq` is zero, a tail that returns leaves
`tscGranularity` as it found it. -/
theorem tsc_init_tail_tscGranularity {k : Config} {s s' : State} {nb : Bool}
    (h : tsc_init_tail k s nb = some s') (ht : s.tscFreq = 0) :
    s'.tscGranularity = s.tscGranularity := by
  simp only [tsc_init_tail, Option.bind_eq_some] at h
  obtain ⟨s2, hbus, htsc⟩ := h
  have h2 : s2.busFreq ≠ 0 ∧ s2.tscFreq = 0 ∧ s2.tscGranularity = s.tscGranularity := by
    unfold tsc_init_bus at hbus
    split_ifs at hbus with h0
    · simp only [Option.bind_eq_some, Option.some.injEq] at hbus
      obtain ⟨_, _, _, _, hs⟩ := hbus
      rw [← hs]
      exact ⟨h0, ht, rfl⟩
    · simp only [Option.some.injEq] at hbus
      rw [← hbus]
      have hne : 200 * Mega ≠ 0 := by decide
      exact ⟨hne, ht, rfl⟩
  obtain ⟨hb, hf, hg⟩ := h2
  unfold tsc_init_tsc at htsc
  split_ifs at htsc with heq hnb
  · exact absurd (hf.symm.trans heq).symm hb
  · simp only [Option.bind_eq_some, Option.some.injEq] at htsc
    obtain ⟨_, _, _, _, _, _, hs⟩ := htsc
    rw [← hs]
    exact hg
  · simp only [Option.bind_eq_some, Option.some.injEq] at htsc
    obtain ⟨_, _, _, _, _, _, hs⟩ := htsc
    rw [← hs]
    exact hg

/-! ## Claims about the `busratio` override -/

/-- C8: when a `busratio` value `v` (64-bit) is supplied, the boot-argument
block replaces whatever was detected by `(1, false)` if `v = 0`,
`(v / 10, true)` if `v > 30` and `v mod 10 ≠ 0`, and `(v, false)` otherwise,
writing no other global; every branch that ends in the block hands exactly
that pair to the tail, and does return unless `getFakeMSR` faulted first;
125 gives `(12, true)` and 0 gives `(1, false)`. -/
theorem busratio_override_result (k : Config) (e : Env) (v : Nat)
    (hv : e.bootarg_busratio = some v) (v64 : v < 2 ^ 64) :
    (∀ s nb, busratio_bootarg e s nb =
        ({ s with tscGranularity := (busratio_spec v).1 }, (busratio_spec v).2)) ∧
    (applies_busratio k e → ∀ s s1 nb, tsc_init_family k e s = some (s1, nb) →
        (s1.tscGranularity, nb) = busratio_spec v) ∧
    (applies_busratio k e → ¬ fake_msr_faults k e →
        ∃ s1 nb, tsc_init_family k e State.zero = some (s1, nb) ∧
          (s1.tscGranularity, nb) = busratio_spec v) ∧
    (v = 125 → ∀ s nb, busratio_bootarg e s nb = ({ s with tscGranularity := 12 }, true)) ∧
    (v = 0 → ∀ s nb, busratio_bootarg e s nb = ({ s with tscGranularity := 1 }, false)) := by
  refine ⟨fun s nb => busratio_bootarg_of_some e s nb v hv v64, ?_, ?_, ?_, ?_⟩
  · intro ha s s1 nb h
    exact tsc_init_family_override hv v64 ha h
  · intro ha hs
    obtain ⟨⟨s1, nb⟩, hr⟩ := tsc_init_family_total k e hs
    exact ⟨s1, nb, hr, tsc_init_family_override hv v64 ha hr⟩
  · intro h125 s nb
    subst h125
    rw [busratio_bootarg_of_some e s nb 125 hv v64]
    rfl
  · intro h0 s nb
    subst h0
    rw [busratio_bootarg_of_some e s nb 0 hv v64]
    rfl

/-- C8 (witness): the Merom machine booted with `busratio=125` hands
granularity 12 with the half-step flag set to the tail. -/
theorem busratio_override_result_witness :
    merom125.bootarg_busratio = some 125 ∧
      (tsc_init_family xnuConfig merom125 State.zero).map (fun r => (r.1.tscGranularity, r.2)) =
        some (12, true) ∧
      busratio_bootarg merom125 State.zero false =
        ({ State.zero with tscGranularity := 12 }, true) :=
  ⟨rfl, by decide,
    (busratio_override_result xnuConfig merom125 125 rfl (by decide)).2.2.2.1 rfl
      State.zero false⟩

/-- C9 (counterexample): a default-family Intel machine without hypervisor,
booted with `busratio=5` while `MSR_PLATFORM_INFO` reports ratio 20, hands
`(20, false)` to the tail and publishes `tscGranularity = 20`; the override
would give `(5, false)`. -/
theorem intel_default_ignores_busratio :
    nehalemBusratio.IsIntelCPU = true ∧
      vmm_short_circuit nehalemBusratio = false ∧
      nehalemBusratio.bootarg_busratio = some 5 ∧
      busratio_spec 5 = (5, false) ∧
      (tsc_init_family xnuConfig nehalemBusratio State.zero).map
          (fun r => (r.1.tscGranularity, r.2)) = some (20, false) ∧
      (tsc_init xnuConfig nehalemBusratio State.zero).map State.tscGranularity = some 20 := by
  decide

/-- C9 (amended): on an Intel-compatible CPU that is not short-circuited by
the hypervisor path and is booted with a `busratio` value `v`, the
Merom/Penryn, Pentium 4 and Pentium M branches hand the override's
granularity and half-step flag to the tail (they return unless `getFakeMSR`
faulted first), and a pass that completes publishes the override's
granularity; the default family never reads `busratio`, so its whole pass is
the one run without the argument. -/
theorem intel_busratio_override (k : Config) (e : Env) (v : Nat)
    (hI : e.IsIntelCPU = true) (hsc : vmm_short_circuit e = false)
    (hv : e.bootarg_busratio = some v) (v64 : v < 2 ^ 64) :
    ((e.cpuid_cpufamily = k.CPUFAMILY_INTEL_MEROM ∨
        e.cpuid_cpufamily = k.CPUFAMILY_INTEL_PENRYN ∨
        e.cpuid_cpufamily = k.CPU_FAMILY_PENTIUM_4 ∨
        e.cpuid_cpufamily = CPU_FAMILY_PENTIUM_M) →
      (¬ fake_msr_faults k e →
        ∃ s1 nb, tsc_init_family k e State.zero = some (s1, nb) ∧
          (s1.tscGranularity, nb) = busratio_spec v) ∧
      (∀ s1 nb, tsc_init_family k e State.zero = some (s1, nb) →
          (s1.tscGranularity, nb) = busratio_spec v) ∧
      (∀ s, tsc_init k e State.zero = some s → s.tscGranularity = (busratio_spec v).1)) ∧
    (¬ (e.cpuid_cpufamily = k.CPUFAMILY_INTEL_MEROM ∨
        e.cpuid_cpufamily = k.CPUFAMILY_INTEL_PENRYN ∨
        e.cpuid_cpufamily = k.CPU_FAMILY_PENTIUM_4 ∨
        e.cpuid_cpufamily = CPU_FAMILY_PENTIUM_M) →
      ∀ s, tsc_init k e s = tsc_init k { e with bootarg_busratio := none } s) := by
  constructor
  · intro hfam
    have ha : applies_busratio k e := fun _ => hfam
    refine ⟨?_, ?_, ?_⟩
    · intro hs
      obtain ⟨⟨s1, nb⟩, hr⟩ := tsc_init_family_total k e hs
      exact ⟨s1, nb, hr, tsc_init_family_override hv v64 ha hr⟩
    · intro s1 nb hr
      exact tsc_init_family_override hv v64 ha hr
    · intro s h
      simp only [tsc_init, hsc, Bool.false_eq_true, if_false, Option.bind_eq_some] at h
      obtain ⟨⟨s1, nb⟩, hfamr, htail⟩ := h
      have hov := tsc_init_family_override hv v64 ha hfamr
      have hfr := (tsc_init_family_frame hfamr).1
      rw [tsc_init_tail_tscGranularity htail hfr, ← hov]
  · intro hfam s
    have key : ∀ e1 : Env, e1.IsIntelCPU = true → vmm_short_circuit e1 = false →
        e1.cpuid_cpufamily = e.cpuid_cpufamily →
        tsc_init k e1 s =
          (tsc_init_intel_default k e1 s false).bind fun r => tsc_init_tail k r.1 r.2 := by
      intro e1 hI1 hsc1 hfam1
      have h1 : ¬ (e1.cpuid_cpufamily = k.CPUFAMILY_INTEL_MEROM ∨
          e1.cpuid_cpufamily = k.CPUFAMILY_INTEL_PENRYN) := fun h =>
        hfam (hfam1 ▸ h.elim Or.inl fun h' => Or.inr (Or.inl h'))
      have h2 : ¬ e1.cpuid_cpufamily = k.CPU_FAMILY_PENTIUM_4 := fun h =>
        hfam (hfam1 ▸ Or.inr (Or.inr (Or.inl h)))
      have h3 : ¬ e1.cpuid_cpufamily = CPU_FAMILY_PENTIUM_M := fun h =>
        hfam (hfam1 ▸ Or.inr (Or.inr (Or.inr h)))
      simp only [tsc_init, hsc1, tsc_init_family, hI1, h1, h2, h3, if_true, if_false,
        Bool.false_eq_true]
    rw [key e hI hsc rfl, key { e with bootarg_busratio := none } hI hsc rfl]
    rfl

/-- C9 (witness): the Merom machine booted with `busratio=125` publishes
granularity 12. -/
theorem intel_busratio_override_witness :
    merom125.cpuid_cpufamily = xnuConfig.CPUFAMILY_INTEL_MEROM ∧
      (tsc_init xnuConfig merom125 State.zero).map State.busFreq = some 133000000 ∧
      ∀ s, tsc_init xnuConfig merom125 State.zero = some s →
        s.tscGranularity = (busratio_spec 125).1 :=
  ⟨rfl, by decide,
    ((intel_busratio_override xnuConfig merom125 125 rfl (by decide) rfl (by decide)).1
      (Or.inl rfl)).2.2⟩

/-! ## Claims about the synthesised register -/

/-- C10 (counterexample): `getFakeMSR(1, 999)` divides by `999 / 1000 = 0` and
returns nothing, and `getFakeMSR(2^63, 1000)` returns a 64-bit value that is
not `((m + 250) / 1000) * 2^40` for `m = 2^63 / (1000 / 1000)`. -/
theorem getFakeMSR_not_as_claimed :
    getFakeMSR 1 999 = none ∧
      2 ^ 63 / (1000 / 1000) % 1000 = 808 ∧
      getFakeMSR (2 ^ 63) 1000 ≠ some ((2 ^ 63 / (1000 / 1000) + 250) / 1000 * 2 ^ 40) := by
  decide

/-- C10 (amended): `getFakeMSR` returns 0 when either argument is 0.  For a
nonzero frequency and `bFreq ≥ 1000`, with `m = frequency / (bFreq / 1000)`, it
returns `(((m + 250) mod 2^64) / 1000 * 2^40) mod 2^64` with bit 46 OR-ed in
when `250 < m mod 1000 < 750`; that is `((m + 250) / 1000) * 2^40` with the
bit OR-ed in whenever `(m + 250) / 1000 < 2^24`; and `(m + 250) / 1000` is
`m / 1000` rounded up exactly when `m mod 1000 ≥ 750`.  For
(2,500,000,000, 200,000,000), `m = 12500`, bits 40-44 hold 12 and bit 46 is
set. -/
theorem getFakeMSR_value :
    (∀ frequency bFreq : Nat, frequency = 0 ∨ bFreq = 0 → getFakeMSR frequency bFreq = some 0) ∧
    (∀ frequency bFreq m : Nat, frequency ≠ 0 → 1000 ≤ bFreq → m = frequency / (bFreq / 1000) →
      getFakeMSR frequency bFreq = some
          (((m + 250) % 2 ^ 64 / 1000 * 2 ^ 40 % 2 ^ 64) |||
            (if 250 < m % 1000 ∧ m % 1000 < 750 then 2 ^ 46 else 0)) ∧
        ((m + 250) / 1000 < 2 ^ 24 →
          getFakeMSR frequency bFreq = some
            (((m + 250) / 1000 * 2 ^ 40) |||
              (if 250 < m % 1000 ∧ m % 1000 < 750 then 2 ^ 46 else 0))) ∧
        (m + 250) / 1000 = m / 1000 + (if 750 ≤ m % 1000 then 1 else 0)) ∧
    (2500000000 / (200000000 / 1000) = 12500 ∧
      ∃ p, getFakeMSR 2500000000 200000000 = some p ∧
        bitfield p 44 40 = 12 ∧ p &&& bit 46 ≠ 0) := by
  refine ⟨?_, ?_, ?_⟩
  · intro frequency bFreq h
    rcases h with h | h
    · rw [h]; exact getFakeMSR_zero_left bFreq
    · rw [h]; exact getFakeMSR_zero_right frequency
  · intro frequency bFreq m hf hb hm
    subst hm
    have key := getFakeMSR_of_ge frequency bFreq hf hb
    refine ⟨key, ?_, ?_⟩
    · intro hlt
      rw [key]
      generalize frequency / (bFreq / 1000) = m at hlt ⊢
      have h1 : (m + 250) % 2 ^ 64 = m + 250 :=
        Nat.mod_eq_of_lt (by norm_num at hlt ⊢; omega)
      have h2 : (m + 250) / 1000 * 2 ^ 40 % 2 ^ 64 = (m + 250) / 1000 * 2 ^ 40 :=
        Nat.mod_eq_of_lt (by norm_num at hlt ⊢; omega)
      rw [h1, h2]
    · generalize frequency / (bFreq / 1000) = m
      split <;> omega
  · exact ⟨by decide, 12 <<< 40 ||| 1 <<< 46, by decide, by decide, by decide⟩

/-! ## The bit-field macros -/

theorem bit_eq_two_pow {n : Nat} (h : n ≤ 63) : bit n = 2 ^ n := by
  unfold bit
  rw [Nat.shiftLeft_eq, one_mul]
  show 2 ^ n % 2 ^ 64 = 2 ^ n
  exact Nat.mod_eq_of_lt (Nat.pow_lt_pow_right (by decide) (by omega))

theorem testBit_not64 {y : Nat} (hy : y < 2 ^ 64) (i : Nat) :
    (not64 y).testBit i = (decide (i < 64) && !y.testBit i) := by
  unfold not64
  have hm : y % two64 = y := Nat.mod_eq_of_lt hy
  have he : two64 - 1 - y = 2 ^ 64 - (y + 1) := by
    show 2 ^ 64 - 1 - y = 2 ^ 64 - (y + 1)
    omega
  rw [hm, he]
  exact Nat.testBit_two_pow_sub_succ hy i

theorem testBit_bitmask {h l : Nat} (hl : l ≤ h) (hh : h ≤ 63) (i : Nat) :
    (bitmask h l).testBit i = (decide (l ≤ i) && decide (i ≤ h)) := by
  have hl63 : l ≤ 63 := by omega
  have hlt : 2 ^ l - 1 < 2 ^ 64 := by
    have : 2 ^ l < 2 ^ 64 := Nat.pow_lt_pow_right (by decide) (by omega)
    omega
  unfold bitmask
  rw [bit_eq_two_pow hh, bit_eq_two_pow hl63, Nat.testBit_and, Nat.testBit_or,
    Nat.testBit_two_pow, Nat.testBit_two_pow_sub_one, testBit_not64 hlt,
    Nat.testBit_two_pow_sub_one]
  by_cases h1 : l ≤ i <;> by_cases h2 : i ≤ h <;> by_cases h3 : h = i <;>
    by_cases h4 : i < h <;> by_cases h5 : i < 64 <;> by_cases h6 : i < l <;>
    simp [h1, h2, h3, h4, h5, h6] <;> omega

/-- The macro `bitfield` extracts bits `[l, h]`, shifted down to position 0. -/
theorem bitfield_eq (x : Nat) {h l : Nat} (hl : l ≤ h) (hh : h ≤ 63) :
    bitfield x h l = (x >>> l) % 2 ^ (h - l + 1) := by
  apply Nat.eq_of_testBit_eq
  intro i
  unfold bitfield
  rw [Nat.testBit_shiftRight, Nat.testBit_and, testBit_bitmask hl hh, Nat.testBit_mod_two_pow,
    Nat.testBit_shiftRight]
  by_cases h1 : i < h - l + 1
  · have h2 : l + i ≤ h := by omega
    simp [h1, h2]
  · have h2 : ¬ l + i ≤ h := by omega
    simp [h1, h2]

theorem bitfield_44_40_eq (x : Nat) : bitfield x 44 40 = x / 2 ^ 40 % 32 := by
  rw [bitfield_eq x (by decide) (by decide), Nat.shiftRight_eq_div_pow]
  rfl

theorem and_bit_46_ne_zero_iff (x : Nat) : x &&& bit 46 ≠ 0 ↔ x.testBit 46 = true := by
  rw [bit_eq_two_pow (by decide)]
  constructor
  · intro h
    by_contra hb
    apply h
    apply Nat.eq_of_testBit_eq
    intro i
    rw [Nat.testBit_and, Nat.testBit_two_pow, Nat.zero_testBit]
    by_cases hi : 46 = i
    · subst hi
      simp [hb]
    · simp [hi]
  · intro h h0
    have h1 : (x &&& 2 ^ 46).testBit 46 = true := by
      rw [Nat.testBit_and, Nat.testBit_two_pow_self, h]
      rfl
    rw [h0, Nat.zero_testBit] at h1
    exact absurd h1 (by decide)

/-- The two fields of a register laid out as `getFakeMSR` does: a multiplier
shifted to bit 40 (truncated to 64 bits), with an optional bit 46. -/
theorem fake_layout_fields (M : Nat) (c : Bool) :
    bitfield ((M * 2 ^ 40 % 2 ^ 64) ||| (if c then 2 ^ 46 else 0)) 44 40 = M % 32 ∧
      ((M * 2 ^ 40 % 2 ^ 64) ||| (if c then 2 ^ 46 else 0)).testBit 46 = (c || M.testBit 6) := by
  constructor
  · rw [bitfield_eq _ (by decide) (by decide)]
    apply Nat.eq_of_testBit_eq
    intro i
    have h32 : (32 : Nat) = 2 ^ 5 := by decide
    rw [h32, Nat.testBit_mod_two_pow, Nat.testBit_mod_two_pow, Nat.testBit_shiftRight,
      Nat.testBit_or, Nat.testBit_mod_two_pow, Nat.mul_comm, Nat.testBit_mul_pow_two]
    by_cases hi : i < 5
    · have h1 : 40 + i < 64 := by omega
      have h2 : 40 + i ≥ 40 := by omega
      have h3 : 40 + i - 40 = i := by omega
      have h4 : (if c then 2 ^ 46 else 0).testBit (40 + i) = false := by
        cases c
        · exact Nat.zero_testBit _
        · rw [if_pos rfl, Nat.testBit_two_pow]
          exact decide_eq_false (by omega)
      rw [h4, h3]
      simp only [hi, h1, h2, decide_True, Bool.true_and, Bool.or_false]
    · simp [hi]
  · rw [Nat.testBit_or, Nat.testBit_mod_two_pow, Nat.mul_comm, Nat.testBit_mul_pow_two]
    cases c
    · simp
    · rw [if_pos rfl, Nat.testBit_two_pow_self]
      simp

/-- Bits 40-44 and bit 46 of the register `getFakeMSR` returns for a nonzero
frequency and `bFreq ≥ 1000`. -/
theorem getFakeMSR_fields (frequency bFreq : Nat) (hf : frequency ≠ 0) (hb : 1000 ≤ bFreq) :
    ∃ p, getFakeMSR frequency bFreq = some p ∧
      bitfield p 44 40 = ((frequency / (bFreq / 1000) + 250) % 2 ^ 64 / 1000) % 32 ∧
      p.testBit 46 =
        (decide (250 < frequency / (bFreq / 1000) % 1000 ∧
            frequency / (bFreq / 1000) % 1000 < 750) ||
          ((frequency / (bFreq / 1000) + 250) % 2 ^ 64 / 1000).testBit 6) := by
  refine ⟨_, getFakeMSR_of_ge frequency bFreq hf hb, ?_⟩
  have h := fake_layout_fields ((frequency / (bFreq / 1000) + 250) % 2 ^ 64 / 1000)
    (decide (250 < frequency / (bFreq / 1000) % 1000 ∧
      frequency / (bFreq / 1000) % 1000 < 750))
  simp only [decide_eq_true_eq] at h
  exact h

/-! ## Claims about the bit-field macros and the synthesised flag -/

/-- C11 (counterexample): for a 12.8 GHz frequency on a 200 MHz bus the
thousandths are `64000`, whose remainder mod 1000 is 0, yet the returned
register is `64 << 40`, which has bit 46 set. -/
theorem getFakeMSR_bit46_without_half_step :
    12800000000 / (200000000 / 1000) % 1000 = 0 ∧
      getFakeMSR 12800000000 200000000 = some (64 <<< 40) ∧
      (64 <<< 40) &&& bit 46 ≠ 0 := by
  decide

/-- C11 (amended): for a nonzero frequency and `bFreq ≥ 1000`, with
`m = frequency / (bFreq / 1000)`, bit 46 of the register `getFakeMSR` returns
is set if and only if `250 < m mod 1000 < 750` or bit 6 of the rounded
multiplier is set; when the rounded multiplier `(m + 250) / 1000` is below 64
it is set if and only if `250 < m mod 1000 < 750`. -/
theorem getFakeMSR_bit46 (frequency bFreq m : Nat) (hf : frequency ≠ 0) (hb : 1000 ≤ bFreq)
    (hm : m = frequency / (bFreq / 1000)) :
    ∃ p, getFakeMSR frequency bFreq = some p ∧
      (p &&& bit 46 ≠ 0 ↔
        (250 < m % 1000 ∧ m % 1000 < 750) ∨ ((m + 250) % 2 ^ 64 / 1000).testBit 6 = true) ∧
      ((m + 250) / 1000 < 64 → (p &&& bit 46 ≠ 0 ↔ 250 < m % 1000 ∧ m % 1000 < 750)) := by
  subst hm
  obtain ⟨p, hp, -, h46⟩ := getFakeMSR_fields frequency bFreq hf hb
  generalize frequency / (bFreq / 1000) = m at h46
  have key : p &&& bit 46 ≠ 0 ↔
      (250 < m % 1000 ∧ m % 1000 < 750) ∨ ((m + 250) % 2 ^ 64 / 1000).testBit 6 = true := by
    rw [and_bit_46_ne_zero_iff, h46, Bool.or_eq_true, decide_eq_true_eq]
  refine ⟨p, hp, key, ?_⟩
  intro hlt
  have h1 : (m + 250) % 2 ^ 64 = m + 250 := Nat.mod_eq_of_lt (by omega)
  have h2 : ((m + 250) % 2 ^ 64 / 1000).testBit 6 = false := by
    rw [h1]
    exact Nat.testBit_lt_two_pow hlt
  rw [key, h2]
  simp

/-- C11 (witness): 2.5 GHz on a 200 MHz bus, thousandths `12500`. -/
theorem getFakeMSR_bit46_witness :
    ∃ p, getFakeMSR 2500000000 200000000 = some p ∧
      (p &&& bit 46 ≠ 0 ↔
        (250 < 12500 % 1000 ∧ 12500 % 1000 < 750) ∨
          ((12500 + 250) % 2 ^ 64 / 1000).testBit 6 = true) ∧
      ((12500 + 250) / 1000 < 64 →
        (p &&& bit 46 ≠ 0 ↔ 250 < 12500 % 1000 ∧ 12500 % 1000 < 750)) :=
  getFakeMSR_bit46 2500000000 200000000 12500 (by decide) (by decide) (by decide)

/-- C16: for every 64-bit `x` and `0 ≤ low ≤ high ≤ 63`, `bitfield(x, high, low)`
is `(x >> low) mod 2^(high - low + 1)`, that is bits `[low, high]` of `x`
shifted down to position 0; for `high = 63` and `low = 0` it is `x` itself. -/
theorem bitfield_extracts_bits (x high low : Nat) (hx : x < 2 ^ 64) (hl : low ≤ high)
    (hh : high ≤ 63) :
    bitfield x high low = (x >>> low) % 2 ^ (high - low + 1) ∧
      bitfield x high low = x / 2 ^ low % 2 ^ (high - low + 1) ∧
      (∀ i, (bitfield x high low).testBit i = (decide (i ≤ high - low) && x.testBit (low + i))) ∧
      (high = 63 → low = 0 → bitfield x high low = x) := by
  have h1 := bitfield_eq x hl hh
  refine ⟨h1, ?_, ?_, ?_⟩
  · rw [h1, Nat.shiftRight_eq_div_pow]
  · intro i
    rw [h1, Nat.testBit_mod_two_pow, Nat.testBit_shiftRight]
    by_cases hi : i ≤ high - low
    · have : i < high - low + 1 := by omega
      simp [hi, this]
    · have : ¬ i < high - low + 1 := by omega
      simp [hi, this]
  · intro h63 h0
    subst h63; subst h0
    rw [h1]
    exact Nat.mod_eq_of_lt hx

/-- C16 (witness): bits 40-44 of the register `12 << 40 | 1 << 46`. -/
theorem bitfield_extracts_bits_witness :
    bitfield (12 <<< 40 ||| 1 <<< 46) 44 40 = 12 ∧
      bitfield (12 <<< 40 ||| 1 <<< 46) 44 40 =
        ((12 <<< 40 ||| 1 <<< 46) >>> 40) % 2 ^ (44 - 40 + 1) :=
  ⟨by decide,
    (bitfield_extracts_bits (12 <<< 40 ||| 1 <<< 46) 44 40 (by decide) (by decide)
      (by decide)).1⟩

/-! ## The fixed-point reciprocal pair -/

/-- The reciprocal `(2^64 - 1) / ((10^9 * 2^32) / f)` never falls more than one
unit below `f * 2^32 / 10^9`. -/
theorem toTicks_lower (f : Nat) (f0 : 0 < f) (hf : f ≤ 4294967296000000000) :
    f * 4294967296 / 1000000000 ≤
      18446744073709551615 / (4294967296000000000 / f) + 1 := by
  have ha : 0 < 4294967296000000000 / f := Nat.div_pos hf f0
  have h1 : 4294967296000000000 / f * f ≤ 4294967296000000000 := Nat.div_mul_le_self _ _
  have h2 : f * 4294967296 / 1000000000 * 1000000000 ≤ f * 4294967296 :=
    Nat.div_mul_le_self _ _
  have h3 : 18446744073709551615 <
      (18446744073709551615 / (4294967296000000000 / f) + 1) *
        (4294967296000000000 / f) :=
    (Nat.div_lt_iff_lt_mul ha).1 (Nat.lt_succ_self _)
  generalize 4294967296000000000 / f = a at ha h1 h3
  generalize 18446744073709551615 / a = T at h3
  generalize f * 4294967296 / 1000000000 = E at h2
  by_contra hc
  have hE : T + 2 ≤ E := by omega
  have h4 : (T + 2) * a ≤ E * a := Nat.mul_le_mul_right a hE
  have h5 : E * 1000000000 * a ≤ f * 4294967296 * a := Nat.mul_le_mul_right a h2
  have h6 : a * f * 4294967296 ≤ 4294967296000000000 * 4294967296 :=
    Nat.mul_le_mul_right _ h1
  nlinarith

/-- Up to 1 GHz the reciprocal never exceeds `f * 2^32 / 10^9` by more than
one unit. -/
theorem toTicks_upper (f : Nat) (f0 : 0 < f) (hf : f ≤ 1000000000) :
    18446744073709551615 / (4294967296000000000 / f) ≤
      f * 4294967296 / 1000000000 + 1 := by
  have ha : 0 < 4294967296000000000 / f := Nat.div_pos (by omega) f0
  have h1 : 4294967296000000000 <
      (4294967296000000000 / f + 1) * f :=
    (Nat.div_lt_iff_lt_mul f0).1 (Nat.lt_succ_self _)
  have h2 : f * 4294967296 <
      (f * 4294967296 / 1000000000 + 1) * 1000000000 :=
    (Nat.div_lt_iff_lt_mul (show 0 < 1000000000 by decide)).1 (Nat.lt_succ_self _)
  have h3 : 18446744073709551615 / (4294967296000000000 / f) *
      (4294967296000000000 / f) ≤ 18446744073709551615 := Nat.div_mul_le_self _ _
  generalize 4294967296000000000 / f = a at ha h1 h3
  generalize 18446744073709551615 / a = T at h3
  generalize f * 4294967296 / 1000000000 = E at h2
  by_contra hc
  have hT : E + 2 ≤ T := by omega
  have hff : f * f ≤ 1000000000 * 1000000000 := Nat.mul_le_mul hf hf
  have hX : f * 4294967296 + 1000000000 + 1 ≤ (E + 2) * 1000000000 := by omega
  have hY : 4294967296000000000 + 1 ≤ a * f + f := by nlinarith
  have h4 : (E + 2) * a ≤ 18446744073709551615 :=
    Nat.le_trans (Nat.mul_le_mul_right a hT) h3
  have h5 : (E + 2) * 1000000000 * (a * f) ≤ 18446744073709551615 * (1000000000 * f) := by
    have := Nat.mul_le_mul_right (1000000000 * f) h4
    nlinarith
  have h6 : (f * 4294967296 + 1000000000 + 1) * (a * f) ≤
      (E + 2) * 1000000000 * (a * f) := Nat.mul_le_mul_right _ hX
  generalize a * f = Y at hY h5 h6
  nlinarith

/-- C12 (counterexample): for `f = 5 * 10^18 < 2^63` the factor
`(10^9 * 2^32) / f` is 0 and the bus half of the tail then divides by it; for
`f = 3 * 10^9` the reciprocal is 12,884,901,891 while `f * 2^32 / 10^9` is
exactly 12,884,901,888, three units apart. -/
theorem toTicks_round_trip_fails :
    5000000000000000000 < 2 ^ 63 ∧
      (10 ^ 9 * 2 ^ 32) / 5000000000000000000 = 0 ∧
      tsc_init_bus (busOnly 5000000000000000000) = none ∧
      (tsc_init_bus (busOnly 3000000000)).map State.busFCvtn2t = some 12884901891 ∧
      3000000000 * 2 ^ 32 / 10 ^ 9 = 12884901888 ∧
      3000000000 * 2 ^ 32 % 10 ^ 9 = 0 := by
  decide

/-- C12 (amended): for every frequency `0 < f ≤ 10^9 * 2^32` the bus half of
the tail returns with `busFCvtt2n = toNanos(f) = (10^9 * 2^32) / f`, which is
nonzero, and `busFCvtn2t = toTicks(toNanos(f)) = (2^64 - 1) / toNanos(f)`,
which is never more than one unit below `f * 2^32 / 10^9`; for `f ≤ 10^9` it is
also never more than one unit above it. -/
theorem toTicks_round_trip (s : State) (f : Nat) (hs : s.busFreq = f) (f0 : 0 < f)
    (hf : f ≤ 10 ^ 9 * 2 ^ 32) :
    ∃ s', tsc_init_bus s = some s' ∧
      s'.busFCvtt2n = (10 ^ 9 * 2 ^ 32) / f ∧ s'.busFCvtt2n ≠ 0 ∧
      s'.busFCvtn2t = (2 ^ 64 - 1) / s'.busFCvtt2n ∧
      f * 2 ^ 32 / 10 ^ 9 ≤ s'.busFCvtn2t + 1 ∧
      (f ≤ 10 ^ 9 → s'.busFCvtn2t ≤ f * 2 ^ 32 / 10 ^ 9 + 1) := by
  have hK : (10 : Nat) ^ 9 * 2 ^ 32 = 4294967296000000000 := by norm_num
  have hM : (2 : Nat) ^ 64 - 1 = 18446744073709551615 := by norm_num
  have h32 : (2 : Nat) ^ 32 = 4294967296 := by norm_num
  have h9 : (10 : Nat) ^ 9 = 1000000000 := by norm_num
  rw [hK] at hf
  have fne : f ≠ 0 := by omega
  have hq : GigaShl32 / f ≠ 0 := by
    rw [GigaShl32_val]
    have : 0 < 4294967296000000000 / f := Nat.div_pos hf f0
    omega
  have key : tsc_init_bus s = some
      { s with busFCvtt2n := GigaShl32 / f, busFCvtn2t := UINT64_MAX / (GigaShl32 / f) } := by
    simp only [tsc_init_bus, hs, ne_eq, fne, not_false_eq_true, if_true,
      udiv_of_ne_zero fne, udiv_of_ne_zero hq, Option.some_bind]
  refine ⟨_, key, ?_, hq, ?_, ?_, ?_⟩
  · show GigaShl32 / f = 10 ^ 9 * 2 ^ 32 / f
    rw [GigaShl32_val, hK]
  · show UINT64_MAX / (GigaShl32 / f) = (2 ^ 64 - 1) / (GigaShl32 / f)
    rw [hM]
    rfl
  · show f * 2 ^ 32 / 10 ^ 9 ≤ UINT64_MAX / (GigaShl32 / f) + 1
    rw [h32, h9, GigaShl32_val]
    exact toTicks_lower f f0 hf
  · intro h1
    show UINT64_MAX / (GigaShl32 / f) ≤ f * 2 ^ 32 / 10 ^ 9 + 1
    rw [h32, h9, GigaShl32_val]
    rw [h9] at h1
    exact toTicks_upper f f0 h1

/-- C12 (witness): a 133 MHz bus. -/
theorem toTicks_round_trip_witness :
    ∃ s', tsc_init_bus (busOnly 133000000) = some s' ∧
      s'.busFCvtt2n = (10 ^ 9 * 2 ^ 32) / 133000000 ∧ s'.busFCvtt2n ≠ 0 ∧
      s'.busFCvtn2t = (2 ^ 64 - 1) / s'.busFCvtt2n ∧
      133000000 * 2 ^ 32 / 10 ^ 9 ≤ s'.busFCvtn2t + 1 ∧
      (133000000 ≤ 10 ^ 9 → s'.busFCvtn2t ≤ 133000000 * 2 ^ 32 / 10 ^ 9 + 1) :=
  toTicks_round_trip (busOnly 133000000) 133000000 rfl (by decide) (by decide)

/-! ## The bus frequency a strategy hands to the tail -/

theorem busratio_bootarg_busFreq (e : Env) (s : State) (nb : Bool) :
    (busratio_bootarg e s nb).1.busFreq = s.busFreq := by
  unfold busratio_bootarg
  split
  · rfl
  · dsimp only
    split <;> split <;> rfl

theorem read_InitialTSC_busFreq (e : Env) (s : State) :
    (read_InitialTSC e s).busFreq = s.busFreq := by
  unfold read_InitialTSC
  split
  · split <;> rfl
  · rfl

theorem tsc_init_pentium_4_busFreq {k : Config} {e : Env} {s s1 : State} {nb0 nb : Bool}
    (h : tsc_init_pentium_4 k e s nb0 = some (s1, nb)) : s1.busFreq = s.busFreq := by
  unfold tsc_init_pentium_4 at h
  simp only [Option.bind_eq_some, Option.some.injEq] at h
  obtain ⟨r, hr, hb⟩ := h
  have h1 : s1.busFreq = r.1.busFreq := by
    have := busratio_bootarg_busFreq e r.1 r.2
    rw [hb] at this
    exact this
  rw [h1]
  split_ifs at hr
  · simp only [fake_msr_ratio, Option.bind_eq_some, Option.some.injEq] at hr
    obtain ⟨p, -, hp⟩ := hr
    rw [← hp]
  · simp only [Option.some.injEq] at hr
    rw [← hr]
  · simp only [Option.some.injEq] at hr
    rw [← hr]
    rfl

/-- The Merom/Penryn strategy hands the value of `EFI_get_frequency` to the
tail as `busFreq`. -/
theorem tsc_init_merom_penryn_busFreq {k : Config} {e : Env} {s s1 : State} {nb : Bool}
    (h : tsc_init_merom_penryn k e s = some (s1, nb)) :
    s1.busFreq = (EFI_get_frequency e "FSBFrequency" s).1 := by
  unfold tsc_init_merom_penryn at h
  rw [tsc_init_pentium_4_busFreq h]
  exact EFI_get_frequency_fst e "FSBFrequency" _ s

theorem EFI_get_frequency_of_some {e : Env} {prop : String} {p : DTProp}
    (he : e.efi_platform = true) (hp : e.DTGetProperty prop = some p) (s : State) :
    EFI_get_frequency e prop s =
      (if p.size = 8 then p.value % two64 else 0, read_InitialTSC e s) := by
  simp only [EFI_get_frequency, he, Bool.true_eq_false, if_false, hp]

theorem EFI_FSB_frequency_of_some {e : Env} {p : DTProp}
    (he : e.efi_platform = true) (hp : e.DTGetProperty "FSBFrequency" = some p) (s : State) :
    EFI_FSB_frequency e s =
      (if p.size = 8 then
          if ¬ (90 * Mega < p.value % two64 ∧ p.value % two64 < 20 * Giga) then 0
          else p.value % two64
        else 0, read_InitialTSC e s) := by
  simp only [EFI_FSB_frequency, he, Bool.true_eq_false, if_false, hp]

theorem EFI_FSB_frequency_discards {e : Env} {p : DTProp}
    (hp : e.DTGetProperty "FSBFrequency" = some p)
    (hbad : ¬ (p.size = 8 ∧ 90000000 < p.value % 2 ^ 64 ∧ p.value % 2 ^ 64 < 20000000000))
    (s : State) : (EFI_FSB_frequency e s).1 = 0 := by
  cases he : e.efi_platform
  · simp only [EFI_FSB_frequency, he, if_true]
  · rw [EFI_FSB_frequency_of_some he hp]
    dsimp only
    have hM : 90 * Mega = 90000000 := by decide
    have hG : 20 * Giga = 20000000000 := by decide
    have h64 : two64 = 2 ^ 64 := rfl
    rw [hM, hG, h64]
    split_ifs with h1 h2
    all_goals first
      | rfl
      | exact absurd ⟨h1, h2⟩ hbad

/-- The strategy for unrecognised AMD families always returns and hands the
value of `EFI_FSB_frequency` to the tail as `busFreq`. -/
theorem tsc_init_amd_default_busFreq (e : Env) (s : State) (nb0 : Bool) :
    ∃ s1 nb, tsc_init_amd_default e s nb0 = some (s1, nb) ∧
      s1.busFreq = (EFI_FSB_frequency e s).1 := by
  obtain ⟨p, hp⟩ := getFakeMSR_isSome (EFI_CPU_Frequency e)
    (EFI_FSB_frequency e s).1 (Or.inr (EFI_FSB_frequency_range e s))
  have key : tsc_init_amd_default e s nb0 = some
      (busratio_bootarg e
        { (EFI_FSB_frequency e s).2 with
          busFreq := (EFI_FSB_frequency e s).1
          tscGranularity := bitfield p 44 40 % two32 } nb0) := by
    simp only [tsc_init_amd_default, hp, Option.some_bind]
  exact ⟨_, _, key, busratio_bootarg_busFreq e _ nb0⟩

/-! ## The default Intel family -/

theorem bit_16 : bit 16 = 2 ^ 16 := bit_eq_two_pow (by decide)

theorem and_bit_16_ne_zero_iff (x : Nat) : x &&& bit 16 ≠ 0 ↔ x.testBit 16 = true := by
  rw [bit_16]
  constructor
  · intro h
    by_contra hb
    apply h
    apply Nat.eq_of_testBit_eq
    intro i
    rw [Nat.testBit_and, Nat.testBit_two_pow, Nat.zero_testBit]
    by_cases hi : 16 = i
    · subst hi
      simp [hb]
    · simp [hi]
  · intro h h0
    have h1 : (x &&& 2 ^ 16).testBit 16 = true := by
      rw [Nat.testBit_and, Nat.testBit_two_pow_self, h]
      rfl
    rw [h0, Nat.zero_testBit] at h1
    exact absurd h1 (by decide)

theorem bitfield_15_8_eq (x : Nat) : bitfield x 15 8 = x / 2 ^ 8 % 256 := by
  rw [bitfield_eq x (by decide) (by decide), Nat.shiftRight_eq_div_pow]
  rfl

theorem bitfield_47_40_eq (x : Nat) : bitfield x 47 40 = x / 2 ^ 40 % 256 := by
  rw [bitfield_eq x (by decide) (by decide), Nat.shiftRight_eq_div_pow]
  rfl

/-- The globals the default Intel family hands to the tail. -/
theorem tsc_init_intel_default_fields (k : Config) (e : Env) (s : State) (nb0 : Bool) :
    ∃ s1, tsc_init_intel_default k e s nb0 = some (s1, nb0) ∧
      s1.flex_ratio_max = bitfield (rdmsr e k.MSR_PLATFORM_INFO) 15 8 % two32 ∧
      s1.flex_ratio_min = bitfield (rdmsr e k.MSR_PLATFORM_INFO) 47 40 % two32 ∧
      s1.tscGranularity =
        (if rdmsr e k.MSR_FLEX_RATIO_addr &&& bit 16 ≠ 0 ∧
            bitfield (rdmsr e k.MSR_FLEX_RATIO_addr) 15 8 % two32 <
              bitfield (rdmsr e k.MSR_PLATFORM_INFO) 15 8 % two32
          then bitfield (rdmsr e k.MSR_FLEX_RATIO_addr) 15 8 % two32
          else bitfield (rdmsr e k.MSR_PLATFORM_INFO) 15 8 % two32) ∧
      s1.flex_ratio =
        (if rdmsr e k.MSR_FLEX_RATIO_addr &&& bit 16 ≠ 0
          then bitfield (rdmsr e k.MSR_FLEX_RATIO_addr) 15 8 % two32 else s.flex_ratio) ∧
      s1.busFreq =
        (if (EFI_get_frequency e "FSBFrequency" s).1 = 0 then k.BASE_NHM_CLOCK_SOURCE % two64
          else (EFI_get_frequency e "FSBFrequency" s).1) := by
  refine ⟨_, rfl, ?_⟩
  have hfst := EFI_get_frequency_fst e "FSBFrequency"
  have hfr : ∀ t : State, (EFI_get_frequency e "FSBFrequency" t).2.flex_ratio = t.flex_ratio ∧
      (EFI_get_frequency e "FSBFrequency" t).2.flex_ratio_max = t.flex_ratio_max ∧
      (EFI_get_frequency e "FSBFrequency" t).2.flex_ratio_min = t.flex_ratio_min ∧
      (EFI_get_frequency e "FSBFrequency" t).2.tscGranularity = t.tscGranularity := by
    intro t
    unfold EFI_get_frequency read_InitialTSC
    split
    · exact ⟨rfl, rfl, rfl, rfl⟩
    · split
      · exact ⟨rfl, rfl, rfl, rfl⟩
      · dsimp only
        split
        · split <;> exact ⟨rfl, rfl, rfl, rfl⟩
        · exact ⟨rfl, rfl, rfl, rfl⟩
  by_cases hb : rdmsr e k.MSR_FLEX_RATIO_addr &&& bit 16 ≠ 0
  · by_cases hlt : bitfield (rdmsr e k.MSR_FLEX_RATIO_addr) 15 8 % two32 <
        bitfield (rdmsr e k.MSR_PLATFORM_INFO) 15 8 % two32
    · by_cases h0 : (EFI_get_frequency e "FSBFrequency" s).1 = 0
      · simp only [hb, hlt, h0, hfst _ s, hfr, and_self, if_true, ne_eq, not_false_eq_true]
      · simp only [hb, hlt, h0, hfst _ s, hfr, and_self, if_true, if_false, ne_eq,
          not_false_eq_true]
    · by_cases h0 : (EFI_get_frequency e "FSBFrequency" s).1 = 0
      · simp only [hb, hlt, h0, hfst _ s, hfr, and_self, if_true, if_false, ne_eq,
          not_false_eq_true, and_false]
      · simp only [hb, hlt, h0, hfst _ s, hfr, and_self, if_true, if_false, ne_eq,
          not_false_eq_true, and_false]
  · by_cases h0 : (EFI_get_frequency e "FSBFrequency" s).1 = 0
    · simp only [hb, h0, hfst _ s, hfr, and_self, if_true, if_false, ne_eq,
        not_false_eq_true, false_and]
    · simp only [hb, h0, hfst _ s, hfr, and_self, if_true, if_false, ne_eq,
        not_false_eq_true, false_and]

/-! ## Which branch the dispatch takes -/

theorem tsc_init_family_merom_penryn (k : Config) (e : Env) (s : State)
    (hI : e.IsIntelCPU = true)
    (hfam : e.cpuid_cpufamily = k.CPUFAMILY_INTEL_MEROM ∨
      e.cpuid_cpufamily = k.CPUFAMILY_INTEL_PENRYN) :
    tsc_init_family k e s = tsc_init_merom_penryn k e s := by
  simp only [tsc_init_family, hI, hfam, if_true]

theorem tsc_init_family_intel_default (k : Config) (e : Env) (s : State)
    (hI : e.IsIntelCPU = true)
    (hfam : ¬ (e.cpuid_cpufamily = k.CPUFAMILY_INTEL_MEROM ∨
      e.cpuid_cpufamily = k.CPUFAMILY_INTEL_PENRYN ∨
      e.cpuid_cpufamily = k.CPU_FAMILY_PENTIUM_4 ∨
      e.cpuid_cpufamily = CPU_FAMILY_PENTIUM_M)) :
    tsc_init_family k e s = tsc_init_intel_default k e s false := by
  have h1 : ¬ (e.cpuid_cpufamily = k.CPUFAMILY_INTEL_MEROM ∨
      e.cpuid_cpufamily = k.CPUFAMILY_INTEL_PENRYN) := fun h =>
    hfam (h.elim Or.inl fun h' => Or.inr (Or.inl h'))
  have h2 : ¬ e.cpuid_cpufamily = k.CPU_FAMILY_PENTIUM_4 := fun h =>
    hfam (Or.inr (Or.inr (Or.inl h)))
  have h3 : ¬ e.cpuid_cpufamily = CPU_FAMILY_PENTIUM_M := fun h =>
    hfam (Or.inr (Or.inr (Or.inr h)))
  simp only [tsc_init_family, hI, h1, h2, h3, if_true, if_false]

theorem tsc_init_family_amd_default (k : Config) (e : Env) (s : State)
    (hI : e.IsIntelCPU = false) (hfam : ¬ recognized_amd e) :
    tsc_init_family k e s = tsc_init_amd_default e s false := by
  have h1 : ¬ e.cpuid_family = 15 := fun h => hfam (Or.inl h)
  have h2 : ¬ (e.cpuid_family = 16 ∨ e.cpuid_family = 18) := fun h => hfam (Or.inr (Or.inl h))
  have h3 : ¬ (e.cpuid_family = 6 ∨ e.cpuid_family = 20 ∨ e.cpuid_family = 21 ∨
      e.cpuid_family = 22) := fun h => hfam (Or.inr (Or.inr h))
  simp only [tsc_init_family, hI, h1, h2, h3, if_false, Bool.false_eq_true]

/-! ## Claims about the firmware bus-frequency property -/

/-- C13 (counterexample): on a Merom machine whose firmware publishes an
8-byte `FSBFrequency` of 50 MHz, below the 90 MHz bound, `EFI_get_frequency`
returns 50,000,000 and the completed pass publishes it as `busFreq`. -/
theorem out_of_range_fsb_becomes_busFreq :
    merom50.DTGetProperty "FSBFrequency" = some { size := 8, value := 50000000 } ∧
      ¬ (90000000 < 50000000) ∧
      (EFI_get_frequency merom50 "FSBFrequency" State.zero).1 = 50000000 ∧
      (tsc_init xnuConfig merom50 State.zero).map State.busFreq = some 50000000 := by
  decide

/-- C13 (amended): when the firmware publishes an `FSBFrequency` property,
`EFI_FSB_frequency` returns 0 unless the value is 8 bytes wide and strictly
between 90 MHz and 20 GHz, and the strategy for unrecognised AMD families,
which probes through it, then hands `busFreq = 0` to the tail.
`EFI_get_frequency`, through which the default Intel family and Merom/Penryn
probe, discards only a value that is not 8 bytes wide: an 8-byte value is
returned as it is and becomes the `busFreq` handed to the tail (on the default
family when it is nonzero), whatever its range. -/
theorem fsb_property_range_check (k : Config) (e : Env) (p : DTProp)
    (hp : e.DTGetProperty "FSBFrequency" = some p) :
    (¬ (p.size = 8 ∧ 90000000 < p.value % 2 ^ 64 ∧ p.value % 2 ^ 64 < 20000000000) →
      (∀ s, (EFI_FSB_frequency e s).1 = 0) ∧
      (e.IsIntelCPU = false → ¬ recognized_amd e →
        ∃ s1 nb, tsc_init_family k e State.zero = some (s1, nb) ∧ s1.busFreq = 0)) ∧
    (p.size ≠ 8 →
      (∀ s, (EFI_get_frequency e "FSBFrequency" s).1 = 0) ∧
      (e.IsIntelCPU = true →
        e.cpuid_cpufamily = k.CPUFAMILY_INTEL_MEROM ∨
          e.cpuid_cpufamily = k.CPUFAMILY_INTEL_PENRYN →
        ∀ s1 nb, tsc_init_family k e State.zero = some (s1, nb) → s1.busFreq = 0)) ∧
    (e.efi_platform = true → p.size = 8 →
      (∀ s, (EFI_get_frequency e "FSBFrequency" s).1 = p.value % 2 ^ 64) ∧
      (e.IsIntelCPU = true →
        e.cpuid_cpufamily = k.CPUFAMILY_INTEL_MEROM ∨
          e.cpuid_cpufamily = k.CPUFAMILY_INTEL_PENRYN →
        ∀ s1 nb, tsc_init_family k e State.zero = some (s1, nb) →
          s1.busFreq = p.value % 2 ^ 64) ∧
      (e.IsIntelCPU = true →
        ¬ (e.cpuid_cpufamily = k.CPUFAMILY_INTEL_MEROM ∨
          e.cpuid_cpufamily = k.CPUFAMILY_INTEL_PENRYN ∨
          e.cpuid_cpufamily = k.CPU_FAMILY_PENTIUM_4 ∨
          e.cpuid_cpufamily = CPU_FAMILY_PENTIUM_M) →
        p.value % 2 ^ 64 ≠ 0 →
        ∃ s1 nb, tsc_init_family k e State.zero = some (s1, nb) ∧
          s1.busFreq = p.value % 2 ^ 64)) := by
  have hsize : p.size ≠ 8 → ∀ s, (EFI_get_frequency e "FSBFrequency" s).1 = 0 := by
    intro h8 s
    cases he : e.efi_platform
    · simp only [EFI_get_frequency, he, if_true]
    · rw [EFI_get_frequency_of_some he hp]
      simp only [h8, if_false]
  have hval : e.efi_platform = true → p.size = 8 →
      ∀ s, (EFI_get_frequency e "FSBFrequency" s).1 = p.value % 2 ^ 64 := by
    intro he h8 s
    rw [EFI_get_frequency_of_some he hp]
    simp only [h8, if_true]
    rfl
  refine ⟨?_, ?_, ?_⟩
  · intro hbad
    refine ⟨fun s => EFI_FSB_frequency_discards hp hbad s, ?_⟩
    intro hI hfam
    obtain ⟨s1, nb, h1, h2⟩ := tsc_init_amd_default_busFreq e State.zero false
    refine ⟨s1, nb, ?_, ?_⟩
    · rw [tsc_init_family_amd_default k e State.zero hI hfam]
      exact h1
    · rw [h2]
      exact EFI_FSB_frequency_discards hp hbad State.zero
  · intro h8
    refine ⟨hsize h8, ?_⟩
    intro hI hfam s1 nb h
    rw [tsc_init_family_merom_penryn k e State.zero hI hfam] at h
    rw [tsc_init_merom_penryn_busFreq h]
    exact hsize h8 State.zero
  · intro he h8
    refine ⟨hval he h8, ?_, ?_⟩
    · intro hI hfam s1 nb h
      rw [tsc_init_family_merom_penryn k e State.zero hI hfam] at h
      rw [tsc_init_merom_penryn_busFreq h]
      exact hval he h8 State.zero
    · intro hI hfam hne
      obtain ⟨s1, h1, -, -, -, -, hbus⟩ :=
        tsc_init_intel_default_fields k e State.zero false
      refine ⟨s1, false, ?_, ?_⟩
      · rw [tsc_init_family_intel_default k e State.zero hI hfam]
        exact h1
      · rw [hbus, hval he h8 State.zero, if_neg hne]

/-- C13 (witness): the unrecognised AMD family with a 50 MHz property hands
`busFreq = 0` to the tail. -/
theorem fsb_property_range_check_witness :
    amdOther50.DTGetProperty "FSBFrequency" = some { size := 8, value := 50000000 } ∧
      (EFI_FSB_frequency amdOther50 State.zero).1 = 0 ∧
      ∃ s1 nb, tsc_init_family xnuConfig amdOther50 State.zero = some (s1, nb) ∧
        s1.busFreq = 0 :=
  ⟨rfl,
    ((fsb_property_range_check xnuConfig amdOther50 { size := 8, value := 50000000 } rfl).1
      (by decide)).1 State.zero,
    ((fsb_property_range_check xnuConfig amdOther50 { size := 8, value := 50000000 } rfl).1
      (by decide)).2 rfl (by decide)⟩

/-- C19: on the default Intel family, with `max` = bits 8-15 of the
platform-info register and `flex` = bits 8-15 of the flex-ratio register, the
strategy returns with `flex_ratio_max = max`, `flex_ratio_min` = bits 40-47 of
platform-info, and `tscGranularity = flex` if bit 16 of the flex-ratio
register is set and `flex < max`, otherwise `max`, so that
`tscGranularity ≤ flex_ratio_max`; `busFreq` is the value `EFI_get_frequency`
returns for `FSBFrequency` when that is nonzero and `BASE_NHM_CLOCK_SOURCE`
otherwise; the half-step flag stays cleared, and a pass that completes from
globals with `tscFreq = 0` publishes that granularity. -/
theorem intel_default_strategy (k : Config) (e : Env) (s : State)
    (platform_info flex_msr max flex : Nat)
    (hI : e.IsIntelCPU = true)
    (hfam : ¬ (e.cpuid_cpufamily = k.CPUFAMILY_INTEL_MEROM ∨
      e.cpuid_cpufamily = k.CPUFAMILY_INTEL_PENRYN ∨
      e.cpuid_cpufamily = k.CPU_FAMILY_PENTIUM_4 ∨
      e.cpuid_cpufamily = CPU_FAMILY_PENTIUM_M))
    (hpi : platform_info = rdmsr e k.MSR_PLATFORM_INFO)
    (hfm : flex_msr = rdmsr e k.MSR_FLEX_RATIO_addr)
    (hmax : max = platform_info / 2 ^ 8 % 256)
    (hflex : flex = flex_msr / 2 ^ 8 % 256) :
    ∃ s1, tsc_init_family k e s = some (s1, false) ∧
      s1.flex_ratio_max = max ∧
      s1.flex_ratio_min = platform_info / 2 ^ 40 % 256 ∧
      s1.tscGranularity = (if flex_msr.testBit 16 = true ∧ flex < max then flex else max) ∧
      s1.tscGranularity ≤ s1.flex_ratio_max ∧
      s1.busFreq =
        (if (EFI_get_frequency e "FSBFrequency" s).1 = 0 then k.BASE_NHM_CLOCK_SOURCE % 2 ^ 64
          else (EFI_get_frequency e "FSBFrequency" s).1) ∧
      (s.tscFreq = 0 → vmm_short_circuit e = false →
        ∀ s', tsc_init k e s = some s' →
          s'.tscGranularity = (if flex_msr.testBit 16 = true ∧ flex < max then flex else max)) := by
  obtain ⟨s1, h1, hmx, hmn, hg, -, hbus⟩ := tsc_init_intel_default_fields k e s false
  have hfamily := tsc_init_family_intel_default k e s hI hfam
  have hm32 : ∀ x : Nat, x % 256 % two32 = x % 256 := by
    intro x
    rw [two32_val]
    omega
  rw [bitfield_15_8_eq, ← hpi, hm32, ← hmax] at hmx
  rw [bitfield_47_40_eq, ← hpi, hm32] at hmn
  rw [bitfield_15_8_eq, bitfield_15_8_eq, ← hpi, ← hfm, hm32, hm32, ← hmax, ← hflex] at hg
  simp only [and_bit_16_ne_zero_iff] at hg
  have hle : s1.tscGranularity ≤ s1.flex_ratio_max := by
    rw [hg, hmx]
    split_ifs with h
    · exact Nat.le_of_lt h.2
    · exact Nat.le_refl _
  refine ⟨s1, hfamily.trans h1, hmx, hmn, hg, hle, hbus, ?_⟩
  intro ht hsc s' hs'
  simp only [tsc_init, hsc, Bool.false_eq_true, if_false, hfamily, h1, Option.some_bind] at hs'
  have hfr : s1.tscFreq = 0 := by
    rw [(tsc_init_intel_default_frame h1).1, ht]
  rw [tsc_init_tail_tscGranularity hs' hfr, hg]

/-- C19 (witness): maximum ratio 20, flex ratio 18 enabled, 100 MHz bus. -/
theorem intel_default_strategy_witness :
    ∃ s1, tsc_init_family xnuConfig nehalemFlex State.zero = some (s1, false) ∧
      s1.flex_ratio_max = 20 ∧
      s1.flex_ratio_min = (20 <<< 8 ||| 8 <<< 40) / 2 ^ 40 % 256 ∧
      s1.tscGranularity =
        (if (18 <<< 8 ||| 1 <<< 16).testBit 16 = true ∧ 18 < 20 then 18 else 20) ∧
      s1.tscGranularity ≤ s1.flex_ratio_max ∧
      s1.busFreq =
        (if (EFI_get_frequency nehalemFlex "FSBFrequency" State.zero).1 = 0
          then xnuConfig.BASE_NHM_CLOCK_SOURCE % 2 ^ 64
          else (EFI_get_frequency nehalemFlex "FSBFrequency" State.zero).1) ∧
      (State.zero.tscFreq = 0 → vmm_short_circuit nehalemFlex = false →
        ∀ s', tsc_init xnuConfig nehalemFlex State.zero = some s' →
          s'.tscGranularity =
            (if (18 <<< 8 ||| 1 <<< 16).testBit 16 = true ∧ 18 < 20 then 18 else 20)) :=
  intel_default_strategy xnuConfig nehalemFlex State.zero (20 <<< 8 ||| 8 <<< 40)
    (18 <<< 8 ||| 1 <<< 16) 20 18 rfl (by decide) (by decide) (by decide) (by decide)
    (by decide)

/-! ## Claims about bus-frequency autodetection -/

theorem fsb_times_Mega_of_nonneg (n : Int) (h0 : 0 ≤ n) (h31 : n < 2 ^ 31) :
    fsb_times_Mega n = n.toNat * 10 ^ 6 := by
  unfold fsb_times_Mega
  simp only [Mega_val, two64_val]
  norm_num
  have h1 : (n + 2147483648) % 4294967296 - 2147483648 = n := by omega
  rw [h1]
  have h2 : n * 1000000 % 18446744073709551616 = n * 1000000 :=
    Int.emod_eq_of_lt (by omega) (by omega)
  rw [h2]
  omega

/-- C14: with an `fsb` boot argument `n` (a non-negative `int`),
`Detect_FSB_frequency` returns `n * 10^6` and writes no global.  Without one,
with `mult` = bits 40-44 of `getFakeMSR(cpuFreq, 200,000,000)`, it returns
200,000,000 if `mult = 0` or `cpuFreq = 0`, else `cpuFreq / mult`, or
200,000,000 if that quotient is 0; the result is never zero, and the call
leaves `busFreq = 200,000,000` and `tscGranularity = mult` in the globals. -/
theorem Detect_FSB_frequency_value (e : Env) (s : State) :
    (∀ n : Int, e.bootarg_fsb = some n → 0 ≤ n → n < 2 ^ 31 →
      Detect_FSB_frequency e s = some (n.toNat * 10 ^ 6, s)) ∧
    (e.bootarg_fsb = none →
      ∃ p mult r, getFakeMSR (EFI_CPU_Frequency e) 200000000 = some p ∧
        mult = bitfield p 44 40 ∧ mult = p / 2 ^ 40 % 32 ∧
        r = (if mult = 0 ∨ EFI_CPU_Frequency e = 0 then 200000000
              else if EFI_CPU_Frequency e / mult = 0 then 200000000
              else EFI_CPU_Frequency e / mult) ∧
        r ≠ 0 ∧
        Detect_FSB_frequency e s =
          some (r, { s with busFreq := 200000000, tscGranularity := mult })) := by
  constructor
  · intro n hn h0 h31
    simp only [Detect_FSB_frequency, hn, fsb_times_Mega_of_nonneg n h0 h31]
  · intro hn
    have h200 : 200 * Mega = 200000000 := by decide
    obtain ⟨p, hp⟩ := getFakeMSR_isSome (EFI_CPU_Frequency e) (200 * Mega)
      (Or.inr (Or.inr (by decide)))
    have hg : GetCpuMultiplayer e s = some
        (bitfield p 44 40,
          { s with busFreq := 200 * Mega, tscGranularity := bitfield p 44 40 }) := by
      simp only [GetCpuMultiplayer, hp, Option.some_bind]
    refine ⟨p, bitfield p 44 40, _, by rw [← h200]; exact hp, rfl, bitfield_44_40_eq p,
      rfl, ?_, ?_⟩
    · split_ifs with h1 h2
      · decide
      · decide
      · exact h2
    · simp only [Detect_FSB_frequency, hn, hg, Option.some_bind, h200]
      split_ifs with h1 h2
      · rfl
      · have hm : bitfield p 44 40 ≠ 0 := fun h => h1 (Or.inl h)
        rw [udiv_of_ne_zero hm, Option.some_bind, if_neg (by simpa using h2)]
      · have hm : bitfield p 44 40 ≠ 0 := fun h => h1 (Or.inl h)
        rw [udiv_of_ne_zero hm, Option.some_bind, if_pos (by simpa using h2)]

/-! ## Claims about the boot-time TSC snapshot -/

/-- C15 (counterexample): the platform entry publishes an 8-byte `InitialTSC`
of 123,456,789 but no `FSBFrequency`; both lookups return 0 and leave
`tsc_at_boot` at 0. -/
theorem InitialTSC_skipped_when_frequency_missing :
    initialTscOnly.efi_platform = true ∧
      initialTscOnly.DTGetProperty "InitialTSC" = some { size := 8, value := 123456789 } ∧
      initialTscOnly.DTGetProperty "FSBFrequency" = none ∧
      EFI_get_frequency initialTscOnly "FSBFrequency" State.zero = (0, State.zero) ∧
      EFI_FSB_frequency initialTscOnly State.zero = (0, State.zero) ∧
      State.zero.tsc_at_boot = 0 := by
  decide

/-- C15 (amended): when `/efi/platform` is found and publishes an 8-byte
`InitialTSC`, a lookup (`EFI_get_frequency` or `EFI_FSB_frequency`) whose
frequency property is found stores that value in `tsc_at_boot` and changes no
other global, whatever the size or range of the frequency property; a lookup
whose frequency property (or the platform entry) is not found changes
nothing, and neither does any lookup when `InitialTSC` is not published. -/
theorem InitialTSC_capture (e : Env) (s : State) (q : DTProp)
    (he : e.efi_platform = true)
    (hq : e.DTGetProperty "InitialTSC" = some q) (h8 : q.size = 8) :
    (∀ prop p, e.DTGetProperty prop = some p →
      (EFI_get_frequency e prop s).2 = { s with tsc_at_boot := q.value % 2 ^ 64 }) ∧
    (∀ p, e.DTGetProperty "FSBFrequency" = some p →
      (EFI_FSB_frequency e s).2 = { s with tsc_at_boot := q.value % 2 ^ 64 }) ∧
    (∀ prop, e.DTGetProperty prop = none → (EFI_get_frequency e prop s).2 = s) ∧
    (e.DTGetProperty "FSBFrequency" = none → (EFI_FSB_frequency e s).2 = s) ∧
    (∀ (e' : Env) (prop : String), e'.DTGetProperty "InitialTSC" = none →
      (EFI_get_frequency e' prop s).2 = s ∧ (EFI_FSB_frequency e' s).2 = s) := by
  have hr : read_InitialTSC e s = { s with tsc_at_boot := q.value % 2 ^ 64 } := by
    simp only [read_InitialTSC, hq, h8, if_true]
    rfl
  refine ⟨?_, ?_, ?_, ?_, ?_⟩
  · intro prop p hp
    rw [EFI_get_frequency_of_some he hp, hr]
  · intro p hp
    rw [EFI_FSB_frequency_of_some he hp, hr]
  · intro prop hp
    simp only [EFI_get_frequency, he, Bool.true_eq_false, if_false, hp]
  · intro hp
    simp only [EFI_FSB_frequency, he, Bool.true_eq_false, if_false, hp]
  · intro e' prop hn
    have hr' : read_InitialTSC e' s = s := by
      simp only [read_InitialTSC, hn]
    constructor
    · unfold EFI_get_frequency
      split
      · rfl
      · split
        · rfl
        · exact hr'
    · unfold EFI_FSB_frequency
      split
      · rfl
      · split
        · rfl
        · exact hr'

/-- C15 (witness): an 8-byte `InitialTSC` next to a 4-byte `FSBFrequency`: both
lookups return 0 and store the snapshot. -/
theorem InitialTSC_capture_witness :
    (EFI_FSB_frequency initialTscShortFSB State.zero).1 = 0 ∧
      (EFI_get_frequency initialTscShortFSB "FSBFrequency" State.zero).2 =
        { State.zero with tsc_at_boot := 123456789 % 2 ^ 64 } ∧
      (EFI_FSB_frequency initialTscShortFSB State.zero).2 =
        { State.zero with tsc_at_boot := 123456789 % 2 ^ 64 } :=
  ⟨by decide,
    (InitialTSC_capture initialTscShortFSB State.zero { size := 8, value := 123456789 }
      rfl rfl rfl).1 "FSBFrequency" { size := 4, value := 133000000 } rfl,
    (InitialTSC_capture initialTscShortFSB State.zero { size := 8, value := 123456789 }
      rfl rfl rfl).2.1 { size := 4, value := 133000000 } rfl⟩

/-! ## Claims about the Merom/Penryn strategy -/

theorem busratio_bootarg_of_none (e : Env) (s : State) (nb : Bool)
    (h : e.bootarg_busratio = none) : busratio_bootarg e s nb = (s, nb) := by
  simp only [busratio_bootarg, h]

/-- C17 (counterexample): on a Merom machine of model 2 whose
`IA32_PERF_STS` holds ratio 10 in bits 40-44, the strategy takes
`tscGranularity = 7` from bits 24-31 of register `0x2C`. -/
theorem merom_model_2_reads_other_register :
    meromModel2.cpuid_cpufamily = xnuConfig.CPUFAMILY_INTEL_MEROM ∧
      meromModel2.bootarg_busratio = none ∧
      bitfield (rdmsr meromModel2 xnuConfig.IA32_PERF_STS) 44 40 = 10 ∧
      (tsc_init_family xnuConfig meromModel2 State.zero).map
          (fun r => r.1.tscGranularity) = some 7 ∧
      (tsc_init xnuConfig meromModel2 State.zero).map State.tscGranularity = some 7 := by
  decide

/-- C17 (amended): for the Merom and Penryn families, for every CPU model
number above 2 and absent a `busratio` override, the strategy returns with
`tscGranularity` = bits 40-44 of the `IA32_PERF_STS` value, half-step flag =
bit 46 of that value, and `busFreq` = the value `EFI_get_frequency` returns
for `FSBFrequency` (zero when the property is unavailable). -/
theorem merom_penryn_strategy (k : Config) (e : Env) (s : State) (prfsts : Nat)
    (hI : e.IsIntelCPU = true)
    (hfam : e.cpuid_cpufamily = k.CPUFAMILY_INTEL_MEROM ∨
      e.cpuid_cpufamily = k.CPUFAMILY_INTEL_PENRYN)
    (hmodel : 2 < e.cpuid_model) (hbr : e.bootarg_busratio = none)
    (hp : prfsts = rdmsr e k.IA32_PERF_STS) :
    ∃ s1, tsc_init_family k e s = some (s1, prfsts.testBit 46) ∧
      s1.tscGranularity = prfsts / 2 ^ 40 % 32 ∧
      s1.busFreq = (EFI_get_frequency e "FSBFrequency" s).1 ∧
      (e.efi_platform = false ∨ e.DTGetProperty "FSBFrequency" = none → s1.busFreq = 0) := by
  have h1 : ¬ e.cpuid_model < 2 := by omega
  have h2 : ¬ e.cpuid_model = 2 := by omega
  have hflag : decide (prfsts &&& bit 46 ≠ 0) = prfsts.testBit 46 := by
    cases hb : prfsts.testBit 46
    · exact decide_eq_false (fun h => by
        rw [and_bit_46_ne_zero_iff, hb] at h
        exact absurd h (by decide))
    · exact decide_eq_true ((and_bit_46_ne_zero_iff prfsts).2 hb)
  have hg : bitfield prfsts 44 40 % two32 = prfsts / 2 ^ 40 % 32 := by
    rw [bitfield_44_40_eq, two32_val]
    omega
  have key : tsc_init_family k e s = some
      ({ (EFI_get_frequency e "FSBFrequency"
            { s with tscGranularity := bitfield prfsts 44 40 % two32 }).2 with
          busFreq := (EFI_get_frequency e "FSBFrequency"
            { s with tscGranularity := bitfield prfsts 44 40 % two32 }).1
          tscGranularity := bitfield prfsts 44 40 % two32 },
        decide (prfsts &&& bit 46 ≠ 0)) := by
    rw [tsc_init_family_merom_penryn k e s hI hfam]
    simp only [tsc_init_merom_penryn, tsc_init_pentium_4, h1, h2, if_false, perf_sts_ratio,
      ← hp, Option.some_bind, busratio_bootarg_of_none _ _ _ hbr]
  rw [hflag] at key
  have hb : (EFI_get_frequency e "FSBFrequency"
      { s with tscGranularity := bitfield prfsts 44 40 % two32 }).1 =
      (EFI_get_frequency e "FSBFrequency" s).1 := EFI_get_frequency_fst e _ _ s
  refine ⟨_, key, hg, hb, ?_⟩
  intro h0
  show (EFI_get_frequency e "FSBFrequency"
      { s with tscGranularity := bitfield prfsts 44 40 % two32 }).1 = 0
  rcases h0 with h0 | h0
  · simp only [EFI_get_frequency, h0, if_true]
  · unfold EFI_get_frequency
    split
    · rfl
    · rw [h0]

/-- C17 (witness): the Merom machine of model 15 with ratio 20 and a 133 MHz
bus. -/
theorem merom_penryn_strategy_witness :
    ∃ s1, tsc_init_family xnuConfig merom133 State.zero =
        some (s1, (20 <<< 40).testBit 46) ∧
      s1.tscGranularity = (20 <<< 40) / 2 ^ 40 % 32 ∧
      s1.busFreq = (EFI_get_frequency merom133 "FSBFrequency" State.zero).1 ∧
      (merom133.efi_platform = false ∨ merom133.DTGetProperty "FSBFrequency" = none →
        s1.busFreq = 0) :=
  merom_penryn_strategy xnuConfig merom133 State.zero (20 <<< 40) rfl (Or.inl rfl)
    (by decide) rfl (by decide)

/-! ## The recognised AMD families -/

theorem EFI_FSB_frequency_busFreq (e : Env) (s : State) :
    (EFI_FSB_frequency e s).2.busFreq = s.busFreq := by
  unfold EFI_FSB_frequency
  split
  · rfl
  · split
    · rfl
    · exact read_InitialTSC_busFreq e s

/-- Bit 0 of a register synthesised by `getFakeMSR` is never set. -/
theorem getFakeMSR_bit_0 {frequency bFreq p : Nat} (h : getFakeMSR frequency bFreq = some p) :
    p &&& bit 0 = 0 := by
  have hb0 : bit 0 = 1 := by decide
  rw [hb0, Nat.and_one_is_mod]
  by_cases hz : frequency = 0 ∨ bFreq = 0
  · simp only [getFakeMSR, hz, if_true, Option.some.injEq] at h
    rw [← h]
  · have hf : frequency ≠ 0 := fun h0 => hz (Or.inl h0)
    have hb : 1000 ≤ bFreq := by
      by_contra hlt
      have hd : bFreq / 1000 = 0 := by omega
      simp only [getFakeMSR, hz, if_false, hd, udiv_zero, Option.none_bind] at h
      exact absurd h (by simp)
    rw [getFakeMSR_of_ge frequency bFreq hf hb] at h
    simp only [Option.some.injEq] at h
    rw [← h]
    have ht : ∀ x : Nat, x.testBit 0 = false → x % 2 = 0 := by
      intro x hx
      rw [Nat.testBit_to_div_mod] at hx
      simp only [Nat.pow_zero, Nat.div_one, decide_eq_false_iff_not] at hx
      omega
    apply ht
    rw [Nat.testBit_or, Nat.testBit_mod_two_pow, Nat.mul_comm, Nat.testBit_mul_pow_two]
    split
    · rw [Nat.testBit_two_pow]
      simp
    · simp

theorem decide_and_bit_46 (p : Nat) : decide (p &&& bit 46 ≠ 0) = p.testBit 46 := by
  cases hb : p.testBit 46
  · exact decide_eq_false (fun h => by
      rw [and_bit_46_ne_zero_iff, hb] at h
      exact absurd h (by decide))
  · exact decide_eq_true ((and_bit_46_ne_zero_iff p).2 hb)

theorem bitfield_44_40_mod (p : Nat) : bitfield p 44 40 % two32 = bitfield p 44 40 := by
  have := bitfield_44_40_le p
  rw [two32_val]
  omega

/-- What each recognised AMD family hands to the tail, absent a `busratio`
argument, once autodetection and the synthesiser have returned. -/
theorem tsc_init_family_amd_recognized (k : Config) (e : Env) (s : State)
    (r : Nat × State) (p : Nat)
    (hI : e.IsIntelCPU = false) (hbr : e.bootarg_busratio = none)
    (hr : Detect_FSB_frequency e s = some r)
    (hp : getFakeMSR (EFI_CPU_Frequency e) r.1 = some p) :
    (e.cpuid_family = 15 →
      ∃ s1, tsc_init_family k e s = some (s1, false) ∧
        s1.tscGranularity = bitfield p 44 40 ∧ s1.busFreq = r.1) ∧
    (e.cpuid_family = 16 ∨ e.cpuid_family = 18 ∨ e.cpuid_family = 6 ∨ e.cpuid_family = 20 ∨
        e.cpuid_family = 21 ∨ e.cpuid_family = 22 →
      ∃ s1, tsc_init_family k e s = some (s1, p.testBit 46) ∧
        s1.tscGranularity = bitfield p 44 40 ∧ s1.busFreq = r.1) := by
  have hbit0 : decide (p &&& bit 0 ≠ 0) = false :=
    decide_eq_false (fun h => h (getFakeMSR_bit_0 hp))
  constructor
  · intro h15
    have key : tsc_init_family k e s = some
        ({ r.2 with busFreq := r.1, tscGranularity := bitfield p 44 40 % two32 }, false) := by
      simp only [tsc_init_family, hI, h15, if_true, if_false, Bool.false_eq_true,
        tsc_init_amd_k8, hr, hp, Option.some_bind, busratio_bootarg_of_none _ _ _ hbr, hbit0]
    exact ⟨_, key, bitfield_44_40_mod p, rfl⟩
  · intro hfam
    by_cases h15 : e.cpuid_family = 15
    · exact absurd hfam (by omega)
    · by_cases h10 : e.cpuid_family = 16 ∨ e.cpuid_family = 18
      · have key : tsc_init_family k e s = some
            ({ r.2 with busFreq := r.1, tscGranularity := bitfield p 44 40 % two32 },
              p.testBit 46) := by
          simp only [tsc_init_family, hI, h15, h10, if_true, if_false, Bool.false_eq_true,
            tsc_init_amd_k10, hr, hp, Option.some_bind, busratio_bootarg_of_none _ _ _ hbr,
            decide_and_bit_46]
        exact ⟨_, key, bitfield_44_40_mod p, rfl⟩
      · have hapu : e.cpuid_family = 6 ∨ e.cpuid_family = 20 ∨ e.cpuid_family = 21 ∨
            e.cpuid_family = 22 := by omega
        have key : tsc_init_family k e s = some
            ((EFI_FSB_frequency e
                { r.2 with busFreq := r.1, tscGranularity := bitfield p 44 40 % two32 }).2,
              p.testBit 46) := by
          simp only [tsc_init_family, hI, h15, h10, hapu, if_true, if_false, Bool.false_eq_true,
            tsc_init_amd_apu, hr, hp, Option.some_bind, busratio_bootarg_of_none _ _ _ hbr,
            decide_and_bit_46]
        refine ⟨_, key, ?_, ?_⟩
        · rw [EFI_FSB_frequency_tscGranularity]
          exact bitfield_44_40_mod p
        · rw [EFI_FSB_frequency_busFreq]

/-- C18 (code defect): absent a `busratio` override, families 16, 18, 6, 20, 21
and 22 hand to the tail `tscGranularity` = bits 40-44 and half-step flag =
bit 46 of `getFakeMSR(cpuFreq, busFreq)`, with `busFreq` the result of
`Detect_FSB_frequency`; family 15 takes the same granularity but tests bit 0
of the register, which is never set, so its flag is always cleared.  On a
2.5 GHz K8 booted with `fsb=200` the register is `12 << 40 | 1 << 46`, bit 46
is set, and the strategy hands over `(12, false)`. -/
theorem amd_k8_half_step_lost :
    (∀ (k : Config) (e : Env) (s : State), e.IsIntelCPU = false →
      e.bootarg_busratio = none →
      (e.cpuid_family = 16 ∨ e.cpuid_family = 18 ∨ e.cpuid_family = 6 ∨ e.cpuid_family = 20 ∨
        e.cpuid_family = 21 ∨ e.cpuid_family = 22) →
      ∃ r p s1, Detect_FSB_frequency e s = some r ∧
        getFakeMSR (EFI_CPU_Frequency e) r.1 = some p ∧
        tsc_init_family k e s = some (s1, p.testBit 46) ∧
        s1.tscGranularity = p / 2 ^ 40 % 32 ∧ s1.busFreq = r.1) ∧
    (∀ (k : Config) (e : Env) (s : State), e.IsIntelCPU = false →
      e.bootarg_busratio = none → e.cpuid_family = 15 →
      ∃ r p s1, Detect_FSB_frequency e s = some r ∧
        getFakeMSR (EFI_CPU_Frequency e) r.1 = some p ∧
        tsc_init_family k e s = some (s1, false) ∧
        s1.tscGranularity = p / 2 ^ 40 % 32 ∧ s1.busFreq = r.1) ∧
    (Detect_FSB_frequency amdK8 State.zero = some (200000000, State.zero) ∧
      EFI_CPU_Frequency amdK8 = 2500000000 ∧
      getFakeMSR 2500000000 200000000 = some (12 <<< 40 ||| 1 <<< 46) ∧
      (12 <<< 40 ||| 1 <<< 46).testBit 46 = true ∧
      (tsc_init_family xnuConfig amdK8 State.zero).map (fun r => (r.1.tscGranularity, r.2)) =
        some (12, false)) := by
  refine ⟨?_, ?_, by decide⟩
  · intro k e s hI hbr hfam
    obtain ⟨r, p, hr, hp⟩ := amd_fake_msr_isSome e s
    obtain ⟨s1, h1, h2, h3⟩ := (tsc_init_family_amd_recognized k e s r p hI hbr hr hp).2 hfam
    exact ⟨r, p, s1, hr, hp, h1, by rw [h2, bitfield_44_40_eq], h3⟩
  · intro k e s hI hbr hfam
    obtain ⟨r, p, hr, hp⟩ := amd_fake_msr_isSome e s
    obtain ⟨s1, h1, h2, h3⟩ := (tsc_init_family_amd_recognized k e s r p hI hbr hr hp).1 hfam
    exact ⟨r, p, s1, hr, hp, h1, by rw [h2, bitfield_44_40_eq], h3⟩

/-! ## Autodetection followed by re-synthesis -/

/-- Dividing the CPU frequency by the bus frequency that autodetection derived
from it gives back exactly 1000 times the autodetection multiplier. -/
theorem amd_resynth (c m0 : Nat) (h1 : 150000000 ≤ c) (h2 : c < 6350000000)
    (hm0 : m0 = (c / 200000 + 250) / 1000) :
    1 ≤ m0 ∧ m0 ≤ 31 ∧ 1000 ≤ c / m0 ∧ c / (c / m0 / 1000) = 1000 * m0 := by
  have hlo : 1 ≤ m0 := by omega
  have hhi : m0 ≤ 31 := by omega
  refine ⟨hlo, hhi, ?_⟩
  interval_cases m0 <;>
    exact ⟨by omega, Nat.div_eq_of_lt_le (by omega) (by omega)⟩

/-- The tail returns, and keeps the granularity, for an integral ratio whose
product with the bus frequency does not exceed `10^9 * 2^32`. -/
theorem tsc_init_tail_integral (k : Config) (s : State) (f g : Nat)
    (hf : s.busFreq = f) (hg : s.tscGranularity = g) (f0 : f ≠ 0) (g0 : g ≠ 0)
    (hne : s.tscFreq ≠ f) (hfg : f * g ≤ 4294967296000000000) :
    ∃ s', tsc_init_tail k s false = some s' ∧ s'.tscGranularity = g ∧ s'.busFreq = f := by
  have hq : GigaShl32 / f / g ≠ 0 := by
    rw [GigaShl32_val, Nat.div_div_eq_div_mul]
    have : 0 < 4294967296000000000 / (f * g) :=
      Nat.div_pos hfg (Nat.mul_pos (by omega) (by omega))
    omega
  have ha : GigaShl32 / f ≠ 0 := by
    intro h0
    rw [h0] at hq
    simp at hq
  have hbus : tsc_init_bus s = some
      { s with busFCvtt2n := GigaShl32 / f, busFCvtn2t := UINT64_MAX / (GigaShl32 / f) } := by
    simp only [tsc_init_bus, hf, ne_eq, f0, not_false_eq_true, if_true,
      udiv_of_ne_zero f0, udiv_of_ne_zero ha, Option.some_bind]
  have key : tsc_init_tail k s false = some
      { s with
        busFCvtt2n := GigaShl32 / f
        busFCvtn2t := UINT64_MAX / (GigaShl32 / f)
        tscFCvtt2n := GigaShl32 / f / g
        tscFreq := GigaShl32 / (GigaShl32 / f / g)
        tscFCvtn2t := UINT64_MAX / (GigaShl32 / f / g)
        bus2tsc := k.tmrCvt (GigaShl32 / f) (UINT64_MAX / (GigaShl32 / f / g)) % two64 } := by
    rw [tsc_init_tail, hbus, Option.some_bind]
    simp only [tsc_init_tsc, hf, hg, hne, if_false, Bool.false_eq_true,
      udiv_of_ne_zero g0, udiv_of_ne_zero hq, Option.some_bind]
  exact ⟨_, key, hg, hf⟩

/-- Autodetection on a machine without an `fsb` argument whose CPU frequency
`c` lies in `[150 MHz, 6.35 GHz)`: the multiplier is `(c / 200000 + 250) / 1000`
and the bus frequency is `c` divided by it. -/
theorem Detect_FSB_frequency_autodetect (e : Env) (s : State) (c m0 : Nat)
    (hfsb : e.bootarg_fsb = none) (hc : EFI_CPU_Frequency e = c)
    (h1 : 150000000 ≤ c) (h2 : c < 6350000000)
    (hm0 : m0 = (c / 200000 + 250) / 1000) :
    GetCpuMultiplayer e s =
        some (m0, { s with busFreq := 200 * Mega, tscGranularity := m0 }) ∧
      Detect_FSB_frequency e s =
        some (c / m0, { s with busFreq := 200 * Mega, tscGranularity := m0 }) := by
  obtain ⟨hlo, hhi, hq, -⟩ := amd_resynth c m0 h1 h2 hm0
  have c0 : c ≠ 0 := by omega
  obtain ⟨p, hp, hfield, -⟩ := getFakeMSR_fields c (200 * Mega) c0 (by decide)
  have hd : 200 * Mega / 1000 = 200000 := by decide
  have hmod : (c / 200000 + 250) % 2 ^ 64 = c / 200000 + 250 :=
    Nat.mod_eq_of_lt (by omega)
  rw [hd, hmod, ← hm0, Nat.mod_eq_of_lt (by omega : m0 < 32)] at hfield
  have hg : GetCpuMultiplayer e s =
      some (m0, { s with busFreq := 200 * Mega, tscGranularity := m0 }) := by
    simp only [GetCpuMultiplayer, hc, hp, Option.some_bind, hfield]
  refine ⟨hg, ?_⟩
  have hm : m0 ≠ 0 := by omega
  have hqn : c / m0 ≠ 0 := by omega
  have hor : ¬ (m0 = 0 ∨ c = 0) := by omega
  simp only [Detect_FSB_frequency, hfsb, hg, Option.some_bind, hc, hor, if_false,
    udiv_of_ne_zero hm, ne_eq, hqn, not_false_eq_true, if_true]

/-- C20: on every recognised AMD family with no `fsb` and no `busratio`
argument and a CPU frequency `c` with `150,000,000 ≤ c < 6,350,000,000`, the
autodetection multiplier is `mult = (c / 200000 + 250) / 1000`, the
autodetected bus frequency is `c / mult`, and the register synthesised from
`(c, c / mult)` has thousandths `c / ((c / mult) / 1000) = 1000 * mult`
exactly; the strategy hands granularity `mult` with the half-step flag
cleared to the tail, bit 46 of the register is clear, and the pass from the
all-zero globals completes and publishes `tscGranularity = mult`. -/
theorem amd_autodetect_resynth (k : Config) (e : Env) (c : Nat)
    (hI : e.IsIntelCPU = false) (hfam : recognized_amd e)
    (hfsb : e.bootarg_fsb = none) (hbr : e.bootarg_busratio = none)
    (hc : EFI_CPU_Frequency e = c) (h1 : 150000000 ≤ c) (h2 : c < 6350000000) :
    ∃ mult bus p s1 s',
      mult = (c / 200000 + 250) / 1000 ∧
      (GetCpuMultiplayer e State.zero).map Prod.fst = some mult ∧
      (Detect_FSB_frequency e State.zero).map Prod.fst = some bus ∧
      bus = c / mult ∧
      getFakeMSR c bus = some p ∧
      c / (bus / 1000) = 1000 * mult ∧
      bitfield p 44 40 = mult ∧ p.testBit 46 = false ∧
      tsc_init_family k e State.zero = some (s1, false) ∧
      s1.tscGranularity = mult ∧ s1.busFreq = bus ∧
      tsc_init k e State.zero = some s' ∧ s'.tscGranularity = mult := by
  obtain ⟨hlo, hhi, hq, hm1⟩ := amd_resynth c _ h1 h2 rfl
  obtain ⟨hget, hdet⟩ := Detect_FSB_frequency_autodetect e State.zero c _ hfsb hc h1 h2 rfl
  generalize (c / 200000 + 250) / 1000 = m0 at hlo hhi hq hm1 hget hdet
  have c0 : c ≠ 0 := by omega
  obtain ⟨p, hp, hfield, h46⟩ := getFakeMSR_fields c (c / m0) c0 hq
  have hmod : (1000 * m0 + 250) % 2 ^ 64 = 1000 * m0 + 250 :=
    Nat.mod_eq_of_lt (by omega)
  have hround : (1000 * m0 + 250) / 1000 = m0 := by omega
  rw [hm1, hmod, hround, Nat.mod_eq_of_lt (by omega : m0 < 32)] at hfield
  have hbit6 : m0.testBit 6 = false := Nat.testBit_lt_two_pow (by omega)
  have hrem : ¬ (250 < 1000 * m0 % 1000 ∧ 1000 * m0 % 1000 < 750) := by omega
  rw [hm1, hmod, hround, hbit6, decide_eq_false hrem] at h46
  have h46' : p.testBit 46 = false := by
    rw [h46]
    rfl
  have hp' : getFakeMSR (EFI_CPU_Frequency e)
      (c / m0, { State.zero with busFreq := 200 * Mega, tscGranularity := m0 }).1 = some p := by
    rw [hc]
    exact hp
  obtain ⟨h15, hrest⟩ := tsc_init_family_amd_recognized k e State.zero _ p hI hbr hdet hp'
  have hstrat : ∃ s1, tsc_init_family k e State.zero = some (s1, false) ∧
      s1.tscGranularity = m0 ∧ s1.busFreq = c / m0 := by
    rcases hfam with hf | hf | hf
    · obtain ⟨s1, ha, hb, hcc⟩ := h15 hf
      exact ⟨s1, ha, by rw [hb, hfield], hcc⟩
    · obtain ⟨s1, ha, hb, hcc⟩ := hrest (by omega)
      rw [h46'] at ha
      exact ⟨s1, ha, by rw [hb, hfield], hcc⟩
    · obtain ⟨s1, ha, hb, hcc⟩ := hrest (by omega)
      rw [h46'] at ha
      exact ⟨s1, ha, by rw [hb, hfield], hcc⟩
  obtain ⟨s1, hs1, hg1, hb1⟩ := hstrat
  have hfr : s1.tscFreq = 0 := (tsc_init_family_frame hs1).1
  have hmul : c / m0 * m0 ≤ c := Nat.div_mul_le_self c m0
  obtain ⟨s', hs', hg', -⟩ := tsc_init_tail_integral k s1 (c / m0) m0 hb1 hg1 (by omega)
    (by omega) (by rw [hfr]; omega) (by omega)
  have hsc : vmm_short_circuit e = false := by
    simp only [vmm_short_circuit, hI, Bool.false_and]
  have hpass : tsc_init k e State.zero = some s' := by
    simp only [tsc_init, hsc, Bool.false_eq_true, if_false, hs1, Option.some_bind]
    exact hs'
  refine ⟨m0, c / m0, p, s1, s', rfl, ?_, ?_, rfl, hp, hm1, hfield, h46', hs1, hg1, hb1,
    hpass, hg'⟩
  · rw [hget]
    rfl
  · rw [hdet]
    rfl

/-- C20 (witness): a 3 GHz K10 without boot arguments: multiplier 15 and a
200 MHz bus. -/
theorem amd_autodetect_resynth_witness :
    (GetCpuMultiplayer amdK10 State.zero).map Prod.fst = some 15 ∧
      (tsc_init xnuConfig amdK10 State.zero).map
          (fun s => (s.tscGranularity, s.busFreq)) = some (15, 200000000) ∧
      ∃ mult bus p s1 s',
        mult = (3000000000 / 200000 + 250) / 1000 ∧
        (GetCpuMultiplayer amdK10 State.zero).map Prod.fst = some mult ∧
        (Detect_FSB_frequency amdK10 State.zero).map Prod.fst = some bus ∧
        bus = 3000000000 / mult ∧
        getFakeMSR 3000000000 bus = some p ∧
        3000000000 / (bus / 1000) = 1000 * mult ∧
        bitfield p 44 40 = mult ∧ p.testBit 46 = false ∧
        tsc_init_family xnuConfig amdK10 State.zero = some (s1, false) ∧
        s1.tscGranularity = mult ∧ s1.busFreq = bus ∧
        tsc_init xnuConfig amdK10 State.zero = some s' ∧ s'.tscGranularity = mult :=
  ⟨by decide, by decide,
    amd_autodetect_resynth xnuConfig amdK10 3000000000 rfl (by decide) rfl rfl (by decide)
      (by decide) (by decide)⟩

/-! ## Claims about the decoded ratio -/

/-- C21: for a nonzero frequency and a bus frequency of at least 1000, with
`m = frequency / (busFrequency / 1000)` and `(m + 250) / 1000 < 32`, the
register `getFakeMSR` returns decodes to `g` = bits 40-44 `= (m + 250) / 1000`
and `h` = bit 46 (1 exactly when `250 < m mod 1000 < 750`), and `g + h/2` is
`m / 1000` rounded to the nearest half step: `|1000*g + 500*h - m| ≤ 250`. -/
theorem decoded_ratio_nearest_half_step (frequency bFreq m : Nat)
    (hf : frequency ≠ 0) (hb : 1000 ≤ bFreq) (hm : m = frequency / (bFreq / 1000))
    (hlt : (m + 250) / 1000 < 32) :
    ∃ p g h, getFakeMSR frequency bFreq = some p ∧
      g = bitfield p 44 40 ∧ h = (if p &&& bit 46 ≠ 0 then 1 else 0) ∧
      g = (m + 250) / 1000 ∧
      h = (if 250 < m % 1000 ∧ m % 1000 < 750 then 1 else 0) ∧
      1000 * g + 500 * h ≤ m + 250 ∧ m ≤ 1000 * g + 500 * h + 250 ∧
      ((1000 * g + 500 * h : Int) - m).natAbs ≤ 250 := by
  subst hm
  obtain ⟨p, hp, hfield, h46⟩ := getFakeMSR_fields frequency bFreq hf hb
  generalize frequency / (bFreq / 1000) = m at hlt hfield h46
  have hmod : (m + 250) % 2 ^ 64 = m + 250 := Nat.mod_eq_of_lt (by omega)
  have hbit6 : ((m + 250) / 1000).testBit 6 = false := Nat.testBit_lt_two_pow (by omega)
  rw [hmod, Nat.mod_eq_of_lt hlt] at hfield
  rw [hmod, hbit6, Bool.or_false] at h46
  have hiff : p &&& bit 46 ≠ 0 ↔ (250 < m % 1000 ∧ m % 1000 < 750) := by
    rw [and_bit_46_ne_zero_iff, h46, decide_eq_true_eq]
  have hh : (if p &&& bit 46 ≠ 0 then 1 else 0) =
      (if 250 < m % 1000 ∧ m % 1000 < 750 then 1 else 0) := by
    by_cases hc : 250 < m % 1000 ∧ m % 1000 < 750
    · rw [if_pos (hiff.2 hc), if_pos hc]
    · rw [if_neg (fun h => hc (hiff.1 h)), if_neg hc]
  refine ⟨p, bitfield p 44 40, _, hp, rfl, rfl, hfield, hh, ?_, ?_, ?_⟩
  all_goals
    rw [hh, hfield]
    split_ifs <;> omega

/-- C21 (witness): 2.5 GHz on a 200 MHz bus: `m = 12500` decodes to 12 with the
half-step bit, that is 12.5. -/
theorem decoded_ratio_nearest_half_step_witness :
    bitfield (12 <<< 40 ||| 1 <<< 46) 44 40 = 12 ∧
      ∃ p g h, getFakeMSR 2500000000 200000000 = some p ∧
        g = bitfield p 44 40 ∧ h = (if p &&& bit 46 ≠ 0 then 1 else 0) ∧
        g = (12500 + 250) / 1000 ∧
        h = (if 250 < 12500 % 1000 ∧ 12500 % 1000 < 750 then 1 else 0) ∧
        1000 * g + 500 * h ≤ 12500 + 250 ∧ 12500 ≤ 1000 * g + 500 * h + 250 ∧
        ((1000 * g + 500 * h : Int) - (12500 : Nat)).natAbs ≤ 250 :=
  ⟨by decide,
    decoded_ratio_nearest_half_step 2500000000 200000000 12500 (by decide) (by decide)
      (by decide) (by decide)⟩

/-! ## The 1:1 case of the tail -/

/-- A pass that returns leaves `tscFreq` at most `10^9 * 2^32` if it found it
so: the hypervisor short-circuit stores `1000 * T` with `T` a 32-bit value, the
family strategies do not write `tscFreq`, the 1:1 branch of the tail keeps it,
and the other branch stores a quotient of `10^9 * 2^32`. -/
theorem tsc_init_tscFreq_le {k : Config} {e : Env} {s s' : State}
    (h : tsc_init k e s = some s') (hs : s.tscFreq ≤ 4294967296000000000) :
    s'.tscFreq ≤ 4294967296000000000 := by
  cases hsc : vmm_short_circuit e
  · simp only [tsc_init, hsc, Bool.false_eq_true, if_false, Option.bind_eq_some] at h
    obtain ⟨⟨s1, nb⟩, hfam, htail⟩ := h
    obtain ⟨ht, -⟩ := tsc_init_family_frame hfam
    simp only [tsc_init_tail, Option.bind_eq_some] at htail
    obtain ⟨s2, hbus, htsc⟩ := htail
    have h2 : s2.tscFreq = s1.tscFreq := by
      unfold tsc_init_bus at hbus
      split_ifs at hbus
      · simp only [Option.bind_eq_some, Option.some.injEq] at hbus
        obtain ⟨_, _, _, _, hs2⟩ := hbus
        rw [← hs2]
      · simp only [Option.some.injEq] at hbus
        rw [← hbus]
    have hq : ∀ a b q : Nat, udiv a b = some q → GigaShl32 / q ≤ 4294967296000000000 := by
      intro a b q _
      rw [GigaShl32_val]
      exact Nat.div_le_self _ _
    unfold tsc_init_tsc at htsc
    split_ifs at htsc
    · simp only [Option.some.injEq] at htsc
      rw [← htsc]
      show s2.tscFreq ≤ 4294967296000000000
      omega
    · simp only [Option.bind_eq_some, Option.some.injEq] at htsc
      obtain ⟨q, hq1, f, hf, _, _, hs2⟩ := htsc
      rw [← hs2]
      show f ≤ 4294967296000000000
      rw [(udiv_eq_some.1 hf).2]
      exact hq _ _ _ hq1
    · simp only [Option.bind_eq_some, Option.some.injEq] at htsc
      obtain ⟨q, hq1, f, hf, _, _, hs2⟩ := htsc
      rw [← hs2]
      show f ≤ 4294967296000000000
      rw [(udiv_eq_some.1 hf).2]
      exact hq _ _ _ hq1
  · rw [tsc_init_of_vmm k e s hsc] at h
    simp only [Option.some.injEq] at h
    rw [← h]
    show 1000 * vmm_tsc_frequency e ≤ 4294967296000000000
    have := vmm_tsc_frequency_lt e
    omega

/-- Whatever number of passes produced the globals, `tscFreq` is at most
`10^9 * 2^32`. -/
theorem Calibrated.tscFreq_le {k : Config} {s : State} (h : Calibrated k s) :
    s.tscFreq ≤ 4294967296000000000 := by
  induction h with
  | zero => decide
  | step _ hstep ih => exact tsc_init_tscFreq_le hstep ih

/-- The 1:1 branch of the tail on any globals whose `tscFreq` is at most
`10^9 * 2^32`: if `tscFreq` equals the (possibly defaulted) `busFreq`, the
tail returns, with `tscGranularity = 1`, the TSC factors equal to the bus
factors and `bus2tsc = 1`. -/
theorem tsc_init_tail_one_to_one (k : Config) (s : State) (nb : Bool)
    (hb : s.tscFreq ≤ 4294967296000000000)
    (heq : s.tscFreq = if s.busFreq = 0 then 200000000 else s.busFreq) :
    ∃ s', tsc_init_tail k s nb = some s' ∧
      s'.tscGranularity = 1 ∧ s'.tscFCvtt2n = s'.busFCvtt2n ∧
      s'.tscFCvtn2t = s'.busFCvtn2t ∧ s'.bus2tsc = 1 ∧
      s'.busFreq = (if s.busFreq = 0 then 200000000 else s.busFreq) ∧
      s'.tscFreq = s'.busFreq := by
  by_cases h0 : s.busFreq = 0
  · rw [if_pos h0] at heq
    have hbus : tsc_init_bus s = some { s with busFreq := 200 * Mega } := by
      simp only [tsc_init_bus, h0, ne_eq, not_true_eq_false, if_false]
    have key : tsc_init_tail k s nb = some
        { s with
          busFreq := 200 * Mega
          bus2tsc := 1
          tscGranularity := 1
          tscFCvtn2t := s.busFCvtn2t
          tscFCvtt2n := s.busFCvtt2n } := by
      rw [tsc_init_tail, hbus, Option.some_bind]
      simp only [tsc_init_tsc, heq, Mega_val, if_true]
    refine ⟨_, key, rfl, rfl, rfl, rfl, ?_, ?_⟩
    · simp only [h0, if_true, Mega_val]
    · simp only [heq, Mega_val]
  · rw [if_neg h0] at heq
    have hq : GigaShl32 / s.busFreq ≠ 0 := by
      rw [GigaShl32_val]
      have : 0 < 4294967296000000000 / s.busFreq :=
        Nat.div_pos (by omega) (by omega)
      omega
    have hbus : tsc_init_bus s = some
        { s with
          busFCvtt2n := GigaShl32 / s.busFreq
          busFCvtn2t := UINT64_MAX / (GigaShl32 / s.busFreq) } := by
      simp only [tsc_init_bus, ne_eq, h0, not_false_eq_true, if_true, udiv_of_ne_zero h0,
        udiv_of_ne_zero hq, Option.some_bind]
    have key : tsc_init_tail k s nb = some
        { s with
          busFCvtt2n := GigaShl32 / s.busFreq
          busFCvtn2t := UINT64_MAX / (GigaShl32 / s.busFreq)
          bus2tsc := 1
          tscGranularity := 1
          tscFCvtn2t := UINT64_MAX / (GigaShl32 / s.busFreq)
          tscFCvtt2n := GigaShl32 / s.busFreq } := by
      rw [tsc_init_tail, hbus, Option.some_bind]
      simp only [tsc_init_tsc, heq, if_true]
    refine ⟨_, key, rfl, rfl, rfl, rfl, ?_, ?_⟩
    · simp only [h0, if_false]
    · simp only [heq]

/-- C7: let `s0` be globals that `tsc_init` can be entered with (the static
zeros, or what earlier passes left), and let the family strategy of a pass that
does not take the hypervisor short-circuit hand globals `s` and a half-step
flag `nb` to the shared tail. If `s.tscFreq` equals the (possibly defaulted)
`busFreq`, the pass returns, and the published globals have
`tscGranularity = 1`, `tscFCvtt2n = busFCvtt2n`, `tscFCvtn2t = busFCvtn2t` and
`bus2tsc = 1`, whatever `s.tscGranularity` and `nb` are. -/
theorem tail_one_to_one (k : Config) (e : Env) (s0 s : State) (nb : Bool)
    (hc : Calibrated k s0) (hv : vmm_short_circuit e = false)
    (hf : tsc_init_family k e s0 = some (s, nb))
    (heq : s.tscFreq = if s.busFreq = 0 then 200000000 else s.busFreq) :
    ∃ s', tsc_init k e s0 = some s' ∧ tsc_init_tail k s nb = some s' ∧
      s'.tscGranularity = 1 ∧ s'.tscFCvtt2n = s'.busFCvtt2n ∧
      s'.tscFCvtn2t = s'.busFCvtn2t ∧ s'.bus2tsc = 1 ∧
      s'.busFreq = (if s.busFreq = 0 then 200000000 else s.busFreq) ∧
      s'.tscFreq = s'.busFreq := by
  have hle : s.tscFreq ≤ 4294967296000000000 := by
    rw [(tsc_init_family_frame hf).1]
    exact hc.tscFreq_le
  obtain ⟨s', htail, hrest⟩ := tsc_init_tail_one_to_one k s nb hle heq
  refine ⟨s', ?_, htail, hrest⟩
  simp only [tsc_init, hv, Bool.false_eq_true, if_false, hf, Option.some_bind]
  exact htail

/-- C7 (witness): a pass on the guest `vmm133` leaves `tscFreq` at 133 MHz; a
second pass on the Merom machine `merom133` detects a 133 MHz bus and ratio 20,
and publishes granularity 1. -/
theorem tail_one_to_one_witness :
    tsc_init xnuConfig vmm133 State.zero = some vmm133_result ∧
      tsc_init_family xnuConfig merom133 vmm133_result = some (merom133_reentry, false) ∧
      merom133_reentry.tscGranularity = 20 ∧
      ∃ s', tsc_init xnuConfig merom133 vmm133_result = some s' ∧
        tsc_init_tail xnuConfig merom133_reentry false = some s' ∧
        s'.tscGranularity = 1 ∧ s'.tscFCvtt2n = s'.busFCvtt2n ∧
        s'.tscFCvtn2t = s'.busFCvtn2t ∧ s'.bus2tsc = 1 ∧
        s'.busFreq =
          (if merom133_reentry.busFreq = 0 then 200000000 else merom133_reentry.busFreq) ∧
        s'.tscFreq = s'.busFreq :=
  ⟨by decide, by decide, by decide,
    tail_one_to_one xnuConfig merom133 vmm133_result merom133_reentry false
      (Calibrated.step Calibrated.zero
        (show tsc_init xnuConfig vmm133 State.zero = some vmm133_result by decide))
      (by decide) (by decide) (by decide)⟩

/-! ## The published granularity -/

/-- From globals whose `tscFreq` is zero, a tail entered with the half-step
flag cleared returns only if the granularity it was handed is nonzero: it is
the divisor of `busFCvtt2n / tscGranularity`. -/
theorem tsc_init_tail_tscGranularity_ne_zero {k : Config} {s s' : State}
    (h : tsc_init_tail k s false = some s') (ht : s.tscFreq = 0) :
    s.tscGranularity ≠ 0 := by
  simp only [tsc_init_tail, Option.bind_eq_some] at h
  obtain ⟨s2, hbus, htsc⟩ := h
  have h2 : s2.busFreq ≠ 0 ∧ s2.tscFreq = 0 ∧ s2.tscGranularity = s.tscGranularity := by
    unfold tsc_init_bus at hbus
    split_ifs at hbus with h0
    · simp only [Option.bind_eq_some, Option.some.injEq] at hbus
      obtain ⟨_, _, _, _, hs⟩ := hbus
      rw [← hs]
      exact ⟨h0, ht, rfl⟩
    · simp only [Option.some.injEq] at hbus
      rw [← hbus]
      have hne : 200 * Mega ≠ 0 := by decide
      exact ⟨hne, ht, rfl⟩
  obtain ⟨hb, hf, hg⟩ := h2
  unfold tsc_init_tsc at htsc
  simp only [Bool.false_eq_true, if_false] at htsc
  split_ifs at htsc with heq
  · exact absurd (hf.symm.trans heq).symm hb
  · simp only [Option.bind_eq_some, Option.some.injEq] at htsc
    obtain ⟨q, hq, -⟩ := htsc
    rw [← hg]
    exact (udiv_eq_some.1 hq).1

/-- The granularity the `busratio` override stands for is never zero. -/
theorem busratio_spec_pos (v : Nat) : 1 ≤ (busratio_spec v).1 := by
  unfold busratio_spec
  split_ifs with h0 h1
  · exact Nat.le_refl 1
  · show 1 ≤ v / 10
    omega
  · show 1 ≤ v
    omega

/-- C3 (amended): let a pass from the all-zero state return with globals `s`.
If it took the hypervisor short-circuit, `tscGranularity` is the quotient of
the reported TSC frequency by the reported bus frequency, and it is at least 1
exactly when the TSC frequency is not below the bus frequency. Otherwise
`tscGranularity` is the ratio the family strategy stored, and it is at least 1
exactly when the strategy did not hand over ratio 0 together with a set
half-step flag; in particular it is at least 1 whenever the strategy clears the
flag, whenever a `busratio` argument is honoured, and on every Intel machine of
the default family. -/
theorem tscGranularity_pos_of_completed (k : Config) (e : Env) (s : State)
    (h : tsc_init k e State.zero = some s) :
    (vmm_short_circuit e = true →
      s.tscGranularity = 1000 * vmm_tsc_frequency e / (1000 * vmm_bus_frequency e) ∧
        (1 ≤ s.tscGranularity ↔ vmm_bus_frequency e ≤ vmm_tsc_frequency e)) ∧
    (vmm_short_circuit e = false →
      ∃ s1 nb, tsc_init_family k e State.zero = some (s1, nb) ∧
        s.tscGranularity = s1.tscGranularity ∧
        (1 ≤ s.tscGranularity ↔ ¬ (s1.tscGranularity = 0 ∧ nb = true)) ∧
        (nb = false → 1 ≤ s.tscGranularity) ∧
        (applies_busratio k e → ∀ v, e.bootarg_busratio = some v → v < 2 ^ 64 →
          (s.tscGranularity, nb) = busratio_spec v ∧ 1 ≤ s.tscGranularity) ∧
        (e.IsIntelCPU = true →
          ¬ (e.cpuid_cpufamily = k.CPUFAMILY_INTEL_MEROM ∨
            e.cpuid_cpufamily = k.CPUFAMILY_INTEL_PENRYN ∨
            e.cpuid_cpufamily = k.CPU_FAMILY_PENTIUM_4 ∨
            e.cpuid_cpufamily = CPU_FAMILY_PENTIUM_M) →
          nb = false ∧ 1 ≤ s.tscGranularity)) := by
  constructor
  · intro hsc
    obtain ⟨-, -, -, B0⟩ := (vmm_short_circuit_iff e).1 hsc
    rw [tsc_init_of_vmm k e State.zero hsc] at h
    simp only [Option.some.injEq] at h
    rw [← h]
    refine ⟨rfl, ?_⟩
    show 1 ≤ 1000 * vmm_tsc_frequency e / (1000 * vmm_bus_frequency e) ↔ _
    rw [Nat.one_le_div_iff (by omega)]
    omega
  · intro hsc
    simp only [tsc_init, hsc, Bool.false_eq_true, if_false, Option.bind_eq_some] at h
    obtain ⟨⟨s1, nb⟩, hfam, htail⟩ := h
    have ht : s1.tscFreq = 0 := (tsc_init_family_frame hfam).1
    have hg : s.tscGranularity = s1.tscGranularity := tsc_init_tail_tscGranularity htail ht
    have hclr : nb = false → 1 ≤ s.tscGranularity := by
      intro hnb
      subst hnb
      have hne : s1.tscGranularity ≠ 0 := tsc_init_tail_tscGranularity_ne_zero htail ht
      omega
    refine ⟨s1, nb, hfam, hg, ?_, hclr, ?_, ?_⟩
    · constructor
      · rintro h1 ⟨h0, -⟩
        omega
      · intro hn
        cases nb
        · exact hclr rfl
        · have : s1.tscGranularity ≠ 0 := fun h0 => hn ⟨h0, rfl⟩
          omega
    · intro ha v hv v64
      have hov := tsc_init_family_override hv v64 ha hfam
      have hpos := busratio_spec_pos v
      rw [← hov] at hpos
      refine ⟨by rw [hg]; exact hov, ?_⟩
      rw [hg]
      exact hpos
    · intro hI hdef
      rw [tsc_init_family_intel_default k e State.zero hI hdef] at hfam
      obtain ⟨s1', hd, -⟩ := tsc_init_intel_default_fields k e State.zero false
      rw [hd] at hfam
      simp only [Option.some.injEq, Prod.mk.injEq] at hfam
      have hnb : nb = false := hfam.2.symm
      exact ⟨hnb, hclr hnb⟩

/-- C3 (witness): the Merom machine with a 133 MHz bus booted with
`busratio=125`: the family strategy hands over ratio 12 with the half-step
flag set, and the pass publishes 12. -/
theorem tscGranularity_pos_of_completed_witness :
    tsc_init xnuConfig merom125 State.zero = some merom125_result ∧
      vmm_short_circuit merom125 = false ∧
      merom125_result.tscGranularity = 12 ∧
      ∃ s1 nb, tsc_init_family xnuConfig merom125 State.zero = some (s1, nb) ∧
        merom125_result.tscGranularity = s1.tscGranularity ∧
        (1 ≤ merom125_result.tscGranularity ↔ ¬ (s1.tscGranularity = 0 ∧ nb = true)) ∧
        (nb = false → 1 ≤ merom125_result.tscGranularity) ∧
        (applies_busratio xnuConfig merom125 →
          ∀ v, merom125.bootarg_busratio = some v → v < 2 ^ 64 →
            (merom125_result.tscGranularity, nb) = busratio_spec v ∧
              1 ≤ merom125_result.tscGranularity) ∧
        (merom125.IsIntelCPU = true →
          ¬ (merom125.cpuid_cpufamily = xnuConfig.CPUFAMILY_INTEL_MEROM ∨
            merom125.cpuid_cpufamily = xnuConfig.CPUFAMILY_INTEL_PENRYN ∨
            merom125.cpuid_cpufamily = xnuConfig.CPU_FAMILY_PENTIUM_4 ∨
            merom125.cpuid_cpufamily = CPU_FAMILY_PENTIUM_M) →
          nb = false ∧ 1 ≤ merom125_result.tscGranularity) :=
  ⟨by decide, by decide, by decide,
    (tscGranularity_pos_of_completed xnuConfig merom125 merom125_result (by decide)).2
      (by decide)⟩

end Tsc
